import Mathlib

/-!
# HTTP connection resolver (`connect/HttpConnectionResolver.go`)

A shallow embedding of `validateConnection`, `updateConnection`, `Resolve`,
`ResolveAll` and `Register`, together with the parts of the Go standard
library (`net/url`, `strconv`) that `updateConnection` calls.

Conventions of the embedding:

* a Go pointer that may be `nil` is an `Option`; `none` is `nil`;
* a Go `error` result is an `Option`; `none` is the `nil` error;
* a Go function that can stop with a run-time panic returns an `Option`
  whose `none` is the panic;
* Go strings are Lean strings; the parsers work on their character lists.
  The tests the parsers make on single bytes single out ASCII bytes only, and
  every byte of a character outside ASCII fails them just as that character
  does, so a character stands for its bytes; where percent escapes name
  bytes, the bytes of the result are read back as UTF-8 text;
* `int` is the 64-bit integer type; a port is an `Int`, and `strconv.Atoi`
  carries the bounds of the type.

The descriptors and the two generic resolvers belong to the components
library; they are modelled from the data model and the interfaces that the
specification gives (sections 3 and 6). The getter `GetAsNullableString` of a
credential follows the library itself: it never returns nil.
-/

namespace cerr

/-- The error value built by `cerr.NewConfigError(correlationId, code, message)`
and extended by `WithDetails(key, value)`; errors handed over by the generic
resolvers are values of the same type. -/
structure ApplicationError where
  correlation_id : String
  code : String
  message : String
  details : List (String × String)
deriving DecidableEq, Repr

/-- Constructor `cerr.NewConfigError`. -/
def NewConfigError (correlationId code message : String) : ApplicationError :=
  { correlation_id := correlationId, code := code, message := message, details := [] }

/-- Method `WithDetails`: records one detail under `key`. -/
def ApplicationError.WithDetails (e : ApplicationError) (key value : String) :
    ApplicationError :=
  { e with details := (key, value) :: e.details.filter (fun kv => kv.1 != key) }

end cerr

namespace ccon

/-- Modelled from the spec: the connection descriptor `ccon.ConnectionParams`
of the components library, which is not part of this repository. Section 3 of
the specification gives it the fields `protocol`, `host`, `port` (an integer,
0 meaning unset) and `uri`, next to further entries that are kept as they
are; an absent string entry reads as the empty string. -/
structure ConnectionParams where
  protocol : String
  host : String
  port : Int
  uri : String
  others : List (String × String)
deriving DecidableEq, Repr

/-- Getter `Uri()`. -/
def ConnectionParams.Uri (c : ConnectionParams) : String := c.uri

/-- Getter `Protocol()`. -/
def ConnectionParams.Protocol (c : ConnectionParams) : String := c.protocol

/-- Getter `Host()`. -/
def ConnectionParams.Host (c : ConnectionParams) : String := c.host

/-- Getter `Port()`. -/
def ConnectionParams.Port (c : ConnectionParams) : Int := c.port

/-- Setter `SetUri(value)`. -/
def ConnectionParams.SetUri (c : ConnectionParams) (value : String) : ConnectionParams :=
  { c with uri := value }

/-- Setter `SetProtocol(value)`. -/
def ConnectionParams.SetProtocol (c : ConnectionParams) (value : String) :
    ConnectionParams :=
  { c with protocol := value }

/-- Setter `SetHost(value)`. -/
def ConnectionParams.SetHost (c : ConnectionParams) (value : String) : ConnectionParams :=
  { c with host := value }

/-- Setter `SetPort(value)`. -/
def ConnectionParams.SetPort (c : ConnectionParams) (value : Int) : ConnectionParams :=
  { c with port := value }

/-- Modelled from the spec: the generic connection resolver
`ccon.ConnectionResolver` (section 6 of the specification), an external
collaborator. Each operation is given by its result: `Resolve` yields one
descriptor or an error, `ResolveAll` a slice of descriptor pointers (the
outer `none` is the nil slice) or an error, `Register` an error or nil. The
pointers of a slice are taken to be pairwise distinct, so that a slice is
the list of the descriptors they point to. -/
structure ConnectionResolver where
  Resolve : String → Option ConnectionParams × Option cerr.ApplicationError
  ResolveAll :
    String → Option (List (Option ConnectionParams)) × Option cerr.ApplicationError
  Register : String → Option ConnectionParams → Option cerr.ApplicationError

end ccon

namespace cauth

/-- Modelled from the spec: the credential descriptor `cauth.CredentialParams`
of the components library, a mapping of string keys to values. -/
structure CredentialParams where
  values : List (String × String)
deriving DecidableEq, Repr

/-- Method `GetAsNullableString(key)` of the components library: it reads the
entry of the map, which is the empty text when the key is absent, and returns
a pointer to that text, so that the result is never nil. -/
def CredentialParams.GetAsNullableString (c : CredentialParams) (key : String) :
    Option String :=
  some ((c.values.lookup key).getD "")

/-- Modelled from the spec: the generic credential resolver
`cauth.CredentialResolver` (section 6 of the specification); `Lookup` is
given by its result. -/
structure CredentialResolver where
  Lookup : String → Option CredentialParams × Option cerr.ApplicationError

end cauth

/-! ## The standard library: `strconv`, `strings`, `net/netip`, `net/url`

The functions below follow the sources of the Go standard library. Of
`net/url` they cover `Parse` with everything it calls (`parse`, `getScheme`,
`parseAuthority`, `parseHost`, `unescape`, `shouldEscape` for hosts,
`validUserinfo`, `validOptionalPort`) and the accessors `Hostname()` and
`Port()` (`splitHostPort`); of `net/netip` the reading of an IPv6 address,
which `parseHost` asks for between the brackets of an IP literal. -/

namespace strconv

/-- Function `strconv.Itoa`: the decimal text of `i`, with a leading minus
sign for a negative number. -/
def Itoa (i : Int) : String :=
  if i < 0 then String.mk ('-' :: Nat.toDigits 10 i.natAbs)
  else String.mk (Nat.toDigits 10 i.toNat)

/-- The digit loop shared by `Atoi` and `ParseUint` in base 10: the value of
a run of decimal digits read after `acc`, `none` when a byte is not a digit. -/
def parseDigits : List Char → Nat → Option Nat
  | [], acc => some acc
  | c :: cs, acc =>
    if '0' ≤ c ∧ c ≤ '9' then parseDigits cs (acc * 10 + (c.toNat - '0'.toNat))
    else none

/-- Function `strconv.Atoi` for the 64-bit `int`: the value and whether an
error is returned. A syntax error gives the value 0; a number out of range
gives the nearest bound of the type (the value `ParseInt` returns next to
`ErrRange`). -/
def Atoi (s : String) : Int × Bool :=
  match s.data with
  | [] => (0, true)
  | c :: cs =>
    let neg := c == '-'
    let digits := if c == '+' || c == '-' then cs else c :: cs
    if digits.isEmpty then (0, true)
    else
      match parseDigits digits 0 with
      | none => (0, true)
      | some un =>
        if !neg && un ≥ 2 ^ 63 then ((2 : Int) ^ 63 - 1, true)
        else if neg && un > 2 ^ 63 then (-(2 : Int) ^ 63, true)
        else (if neg then -(un : Int) else (un : Int), false)

end strconv

namespace strings

/-- Function `strings.Cut(s, sep)` for a one-byte separator: the text before
the first `sep`, the text after it, and whether `sep` occurs. -/
def Cut (s : List Char) (sep : Char) : List Char × List Char × Bool :=
  match s.dropWhile (fun c => c != sep) with
  | [] => (s, [], false)
  | _ :: after => (s.takeWhile (fun c => c != sep), after, true)

/-- The split of `s` around the last occurrence of the byte `sep`, as in
`i := strings.LastIndex(s, sep)` followed by `s[:i]` and `s[i+1:]`; `none`
when `sep` does not occur (`i < 0`). -/
def LastIndex (sep : Char) : List Char → Option (List Char × List Char)
  | [] => none
  | x :: xs =>
    match LastIndex sep xs with
    | some (before, after) => some (x :: before, after)
    | none => if x = sep then some ([], xs) else none

/-- The split of `s` at the first occurrence of the text `sep`, as in
`i := strings.Index(s, sep)` followed by `s[:i]` and `s[i:]`; `none` when
`sep` does not occur. -/
def Index (sep : List Char) : List Char → Option (List Char × List Char)
  | [] => if sep.isEmpty then some ([], []) else none
  | x :: xs =>
    if sep.isPrefixOf (x :: xs) then some ([], x :: xs)
    else
      match Index sep xs with
      | some (before, after) => some (x :: before, after)
      | none => none

end strings

namespace netip

/-- The loop of `parseIPv4Fields` over the text of an IPv4 address: `atStart`
and `prevDot` say whether the byte read is the first one and whether a dot
stands before it; `val`, `pos` and `digLen` are the variables of the loop.
The result says whether the text is accepted. -/
def parseIPv4FieldsLoop : List Char → Bool → Bool → Nat → Nat → Nat → Bool
  | [], _, _, _, pos, _ => !(pos < 3)
  | c :: cs, atStart, prevDot, val, pos, digLen =>
    if '0' ≤ c && c ≤ '9' then
      if digLen == 1 && val == 0 then false
      else if val * 10 + (c.toNat - '0'.toNat) > 255 then false
      else parseIPv4FieldsLoop cs false false (val * 10 + (c.toNat - '0'.toNat)) pos
        (digLen + 1)
    else if c == '.' then
      if atStart || cs.isEmpty || prevDot then false
      else if pos == 3 then false
      else parseIPv4FieldsLoop cs false true 0 (pos + 1) 0
    else false

/-- Function `parseIPv4Fields`, reduced to whether it accepts the text. -/
def parseIPv4Fields (s : List Char) : Bool :=
  parseIPv4FieldsLoop s true false 0 0 0

/-- A hexadecimal digit, as the loop of `parseIPv6` tests it. -/
def isHexDigit (c : Char) : Bool :=
  ('0' ≤ c && c ≤ '9') || ('a' ≤ c && c ≤ 'f') || ('A' ≤ c && c ≤ 'F')

/-- The end of `parseIPv6`, after its loop: the whole text must be used, and
the ellipsis must stand for at least one field, which must be there when
fewer than 16 bytes were filled. -/
def parseIPv6End (s : List Char) (i : Nat) (ellipsis : Bool) : Bool :=
  if !s.isEmpty then false
  else if i < 16 then ellipsis
  else !ellipsis

/-- The loop of `parseIPv6` (at most eight rounds, counted by the first
argument): `s` is the text still to read, `i` the number of bytes filled and
`ellipsis` whether a `::` was seen. The result says whether the address is
accepted. -/
def parseIPv6Loop : Nat → List Char → Nat → Bool → Bool
  | 0, s, i, ellipsis => parseIPv6End s i ellipsis
  | rounds + 1, s, i, ellipsis =>
    if 16 ≤ i then parseIPv6End s i ellipsis
    else
      let digits := s.takeWhile isHexDigit
      let rest := s.dropWhile isHexDigit
      if digits.length > 4 then false
      else if digits.isEmpty then false
      else if rest.head? = some '.' then
        if !ellipsis && i != 12 then false
        else if i + 4 > 16 then false
        else if !parseIPv4Fields s then false
        else parseIPv6End [] (i + 4) ellipsis
      else
        match rest with
        | [] => parseIPv6End [] (i + 2) ellipsis
        | c :: rest1 =>
          if c != ':' then false
          else
            match rest1 with
            | [] => false
            | c2 :: rest2 =>
              if c2 == ':' then
                if ellipsis then false
                else if rest2.isEmpty then parseIPv6End [] (i + 2) true
                else parseIPv6Loop rounds rest2 (i + 2) true
              else parseIPv6Loop rounds rest1 (i + 2) ellipsis

/-- Function `parseIPv6`, reduced to whether it accepts the text: the zone
after a `%` must not be empty, and a leading `::` is an ellipsis. -/
def parseIPv6 (text : List Char) : Bool :=
  let s := text.takeWhile (fun c => c != '%')
  let zone := (text.dropWhile (fun c => c != '%')).drop 1
  if text.contains '%' && zone.isEmpty then false
  else if s.take 2 = [':', ':'] then
    if (s.drop 2).isEmpty then true
    else parseIPv6Loop 8 (s.drop 2) 0 true
  else parseIPv6Loop 8 s 0 false

/-- Whether `netip.ParseAddr` accepts the text as an IPv6 address. The first
of the bytes `.`, `:` and `%` decides how the text is read: after a `.` it is
an IPv4 address or an error, after a `%` an error. -/
def ParseAddrIs6 (s : List Char) : Bool :=
  match s.dropWhile (fun c => !(c == '.' || c == ':' || c == '%')) with
  | [] => false
  | c :: _ => if c == ':' then parseIPv6 s else false

end netip

namespace url

/-- The modes of `unescape` that `Parse` uses. -/
inductive encoding where
  | encodePath
  | encodeHost
  | encodeZone
  | encodeUserPassword
  | encodeFragment
deriving DecidableEq, Repr

/-- The fields of `url.URL` that `Parse` fills from the text; the user
information and the raw forms of path and fragment are left out. -/
structure URL where
  Scheme : String
  Opaque : String
  Host : String
  Path : String
  RawQuery : String
  Fragment : String
deriving DecidableEq, Repr

/-- Function `ishex`. -/
def ishex (c : Char) : Bool :=
  ('0' ≤ c && c ≤ '9') || ('a' ≤ c && c ≤ 'f') || ('A' ≤ c && c ≤ 'F')

/-- Function `unhex`. -/
def unhex (c : Char) : Nat :=
  if '0' ≤ c && c ≤ '9' then c.toNat - '0'.toNat
  else if 'a' ≤ c && c ≤ 'f' then c.toNat - 'a'.toNat + 10
  else if 'A' ≤ c && c ≤ 'F' then c.toNat - 'A'.toNat + 10
  else 0

/-- Function `shouldEscape(c, encodeHost)`: letters, digits, the sub-delimiters
of a registered name, the marks added for ports and IP literals, and the
unreserved marks are left alone; every other byte must be escaped. -/
def shouldEscapeHost (c : Char) : Bool :=
  if ('a' ≤ c && c ≤ 'z') || ('A' ≤ c && c ≤ 'Z') || ('0' ≤ c && c ≤ '9') then false
  else if c ∈ ['!', '$', '&', Char.ofNat 39, '(', ')', '*', '+', ',', ';', '=', ':',
      '[', ']', '<', '>', Char.ofNat 34] then false
  else if c ∈ ['-', '_', '.', '~'] then false
  else true

/-- The first loop of `unescape(s, mode)`: whether the percent escapes (and,
for a host or zone, the plain bytes) are well formed. -/
def unescapeCheck (mode : encoding) : List Char → Bool
  | [] => true
  | c :: rest =>
    if c = '%' then
      match rest with
      | h1 :: h2 :: tail =>
        let v := unhex h1 * 16 + unhex h2
        let is25 := h1 == '2' && h2 == '5'
        if !ishex h1 || !ishex h2 then false
        else if mode == encoding.encodeHost && unhex h1 < 8 && !is25 then false
        else if mode == encoding.encodeZone && !is25 && v != 32
            && shouldEscapeHost (Char.ofNat v) then false
        else unescapeCheck mode tail
      | _ => false
    else if (mode == encoding.encodeHost || mode == encoding.encodeZone)
        && c.toNat < 128 && shouldEscapeHost c then false
    else unescapeCheck mode rest

/-- The second loop of `unescape(s, mode)`, on a text that passed the first:
the bytes of the result, each escape replaced by the byte it names and every
other character kept with the bytes of its UTF-8 encoding. -/
def unescapeBytes : List Char → List Nat
  | [] => []
  | c :: rest =>
    if c = '%' then
      match rest with
      | h1 :: h2 :: tail => (unhex h1 * 16 + unhex h2) :: unescapeBytes tail
      | _ => []
    else (String.utf8EncodeChar c).map (fun b => b.toNat) ++ unescapeBytes rest

/-- The character that starts with the byte `b0`, followed by the bytes
`rest`, in UTF-8, and the number of bytes of `rest` that belong to it; a byte
that starts no valid encoding reads as U+FFFD and uses no further byte. -/
def decodeRune (b0 : Nat) (rest : List Nat) : Char × Nat :=
  let low : Nat := if b0 = 224 then 160 else if b0 = 240 then 144 else 128
  let high : Nat := if b0 = 237 then 159 else if b0 = 244 then 143 else 191
  if b0 < 128 then (Char.ofNat b0, 0)
  else
    match rest with
    | b1 :: b2 :: b3 :: _ =>
      let second := low ≤ b1 && b1 ≤ high
      let third := 128 ≤ b2 && b2 ≤ 191
      let fourth := 128 ≤ b3 && b3 ≤ 191
      if 194 ≤ b0 && b0 ≤ 223 && second then
        (Char.ofNat ((b0 - 192) * 64 + (b1 - 128)), 1)
      else if 224 ≤ b0 && b0 ≤ 239 && second && third then
        (Char.ofNat ((b0 - 224) * 4096 + (b1 - 128) * 64 + (b2 - 128)), 2)
      else if 240 ≤ b0 && b0 ≤ 244 && second && third && fourth then
        (Char.ofNat ((b0 - 240) * 262144 + (b1 - 128) * 4096 + (b2 - 128) * 64
          + (b3 - 128)), 3)
      else (Char.ofNat 65533, 0)
    | [b1, b2] =>
      let second := low ≤ b1 && b1 ≤ high
      let third := 128 ≤ b2 && b2 ≤ 191
      if 194 ≤ b0 && b0 ≤ 223 && second then
        (Char.ofNat ((b0 - 192) * 64 + (b1 - 128)), 1)
      else if 224 ≤ b0 && b0 ≤ 239 && second && third then
        (Char.ofNat ((b0 - 224) * 4096 + (b1 - 128) * 64 + (b2 - 128)), 2)
      else (Char.ofNat 65533, 0)
    | [b1] =>
      if 194 ≤ b0 && b0 ≤ 223 && low ≤ b1 && b1 ≤ high then
        (Char.ofNat ((b0 - 192) * 64 + (b1 - 128)), 1)
      else (Char.ofNat 65533, 0)
    | [] => (Char.ofNat 65533, 0)

/-- The text of the given bytes read as UTF-8, after the first `skip` bytes,
which belong to the character before them. -/
def textOfBytesFrom : Nat → List Nat → List Char
  | _, [] => []
  | skip + 1, _ :: rest => textOfBytesFrom skip rest
  | 0, b0 :: rest => (decodeRune b0 rest).1 :: textOfBytesFrom (decodeRune b0 rest).2 rest

/-- The text that a Go string with the given bytes holds: the bytes read as
UTF-8, a byte that belongs to no valid encoding read as U+FFFD (as when the
string is ranged over). -/
def textOfBytes (bytes : List Nat) : List Char :=
  textOfBytesFrom 0 bytes

/-- Function `unescape(s, mode)`: `none` is an error; a text without escapes
is returned as it is, any other one with its escapes decoded. -/
def unescape (mode : encoding) (s : List Char) : Option (List Char) :=
  if !unescapeCheck mode s then none
  else if !s.contains '%' then some s
  else some (textOfBytes (unescapeBytes s))

/-- Function `stringContainsCTLByte`. -/
def stringContainsCTLByte (s : List Char) : Bool :=
  s.any (fun b => b < ' ' || b == Char.ofNat 127)

/-- The loop of `getScheme` from index `i`, where `rest` is `rawURL[i:]`. -/
def getSchemeLoop (rawURL : List Char) : Nat → List Char → Option (List Char × List Char)
  | _, [] => some ([], rawURL)
  | i, c :: cs =>
    if ('a' ≤ c && c ≤ 'z') || ('A' ≤ c && c ≤ 'Z') then getSchemeLoop rawURL (i + 1) cs
    else if ('0' ≤ c && c ≤ '9') || c == '+' || c == '-' || c == '.' then
      if i == 0 then some ([], rawURL) else getSchemeLoop rawURL (i + 1) cs
    else if c == ':' then
      if i == 0 then none else some (rawURL.take i, cs)
    else some ([], rawURL)

/-- Function `getScheme`: the scheme and the text after its colon; `none` is
the error `missing protocol scheme`. -/
def getScheme (rawURL : List Char) : Option (List Char × List Char) :=
  getSchemeLoop rawURL 0 rawURL

/-- Function `validOptionalPort`. -/
def validOptionalPort (port : List Char) : Bool :=
  match port with
  | [] => true
  | c :: digits => c == ':' && digits.all (fun b => !(b < '0' || b > '9'))

/-- Function `parseHost`; `none` is an error. A host with a `[` is an IP
literal: the text between the last `[` and the last `]` must be an IPv6
address, and only a port may follow the `]`. -/
def parseHost (host : List Char) : Option (List Char) :=
  match strings.LastIndex '[' host with
  | some (_, afterOpen) =>
    match strings.LastIndex ']' host with
    | none => none
    | some (_, colonPort) =>
      if !validOptionalPort colonPort then none
      else
        match unescape encoding.encodeHost colonPort with
        | none => none
        | some unescapedColonPort =>
          let hostname := afterOpen.take (afterOpen.length - (colonPort.length + 1))
          let unescapedHostname :=
            match strings.Index ['%', '2', '5'] hostname with
            | some (hostPart, zonePart) =>
              match unescape encoding.encodeHost hostPart,
                unescape encoding.encodeZone zonePart with
              | some h, some z => some (h ++ z)
              | _, _ => none
            | none => unescape encoding.encodeHost hostname
          match unescapedHostname with
          | none => none
          | some name =>
            if !netip.ParseAddrIs6 name then none
            else some ('[' :: name ++ ']' :: unescapedColonPort)
  | none =>
    match strings.LastIndex ':' host with
    | some (_, port) =>
      if !validOptionalPort (':' :: port) then none
      else unescape encoding.encodeHost host
    | none => unescape encoding.encodeHost host

/-- Function `validUserinfo`. -/
def validUserinfo (s : List Char) : Bool :=
  s.all (fun r =>
    ('A' ≤ r && r ≤ 'Z') || ('a' ≤ r && r ≤ 'z') || ('0' ≤ r && r ≤ '9')
      || r ∈ ['-', '.', '_', ':', '~', '!', '$', '&', Char.ofNat 39,
        '(', ')', '*', '+', ',', ';', '=', '%', '@'])

/-- Function `parseAuthority`, reduced to the host it returns; `none` is an
error (of the host or of the user information). -/
def parseAuthority (authority : List Char) : Option (List Char) :=
  match strings.LastIndex '@' authority with
  | none => parseHost authority
  | some (userinfo, hostText) =>
    match parseHost hostText with
    | none => none
    | some host =>
      if !validUserinfo userinfo then none
      else if !userinfo.contains ':' then
        (unescape encoding.encodeUserPassword userinfo).map (fun _ => host)
      else
        let (username, password, _) := strings.Cut userinfo ':'
        match unescape encoding.encodeUserPassword username,
          unescape encoding.encodeUserPassword password with
        | some _, some _ => some host
        | _, _ => none

/-- The end of `parse`, from the test for an authority on: `rest` is the text
after scheme and query. -/
def parseAuthorityAndPath (scheme rawQuery rest : List Char) : Option URL :=
  let startsWith2 := rest.take 2 == ['/', '/']
  let startsWith3 := rest.take 3 == ['/', '/', '/']
  if (scheme != [] || !startsWith3) && startsWith2 then
    let authority := (rest.drop 2).takeWhile (fun c => c != '/')
    let rest := (rest.drop 2).dropWhile (fun c => c != '/')
    match parseAuthority authority with
    | none => none
    | some host =>
      match unescape encoding.encodePath rest with
      | none => none
      | some path =>
        some { Scheme := String.mk scheme, Opaque := "", Host := String.mk host,
               Path := String.mk path, RawQuery := String.mk rawQuery, Fragment := "" }
  else
    match unescape encoding.encodePath rest with
    | none => none
    | some path =>
      some { Scheme := String.mk scheme, Opaque := "", Host := "",
             Path := String.mk path, RawQuery := String.mk rawQuery, Fragment := "" }

/-- Function `parse(rawURL, viaRequest)` with `viaRequest = false`; `none` is
an error. -/
def parse (rawURL : List Char) : Option URL :=
  if stringContainsCTLByte rawURL then none
  else if rawURL = ['*'] then
    some { Scheme := "", Opaque := "", Host := "", Path := "*", RawQuery := "",
           Fragment := "" }
  else
    match getScheme rawURL with
    | none => none
    | some (scheme, rest) =>
      let scheme := scheme.map Char.toLower
      let split :=
        if rest.getLast? = some '?' && rest.count '?' == 1 then (rest.dropLast, [])
        else ((strings.Cut rest '?').1, (strings.Cut rest '?').2.1)
      let rest := split.1
      let rawQuery := split.2
      if rest.head? != some '/' then
        if scheme != [] then
          some { Scheme := String.mk scheme, Opaque := String.mk rest, Host := "",
                 Path := "", RawQuery := String.mk rawQuery, Fragment := "" }
        else if (rest.takeWhile (fun c => c != '/')).contains ':' then none
        else parseAuthorityAndPath scheme rawQuery rest
      else parseAuthorityAndPath scheme rawQuery rest

/-- Function `url.Parse`; `none` is the result `nil, err`. -/
def Parse (rawURL : String) : Option URL :=
  let u := (strings.Cut rawURL.data '#').1
  let frag := (strings.Cut rawURL.data '#').2.1
  match parse u with
  | none => none
  | some url =>
    if frag = [] then some url
    else
      match unescape encoding.encodeFragment frag with
      | none => none
      | some f => some { url with Fragment := String.mk f }

/-- Function `splitHostPort`. -/
def splitHostPort (hostPort : List Char) : List Char × List Char :=
  let split :=
    match strings.LastIndex ':' hostPort with
    | some (host, port) =>
      if validOptionalPort (':' :: port) then (host, port) else (hostPort, [])
    | none => (hostPort, [])
  let host := split.1
  if host.head? = some '[' && host.getLast? = some ']' then
    ((host.drop 1).dropLast, split.2)
  else (host, split.2)

/-- Method `Hostname()`. -/
def URL.Hostname (u : URL) : String := String.mk (splitHostPort u.Host.data).1

/-- Method `Port()`. -/
def URL.Port (u : URL) : String := String.mk (splitHostPort u.Host.data).2

end url

/-! ## The resolver -/

namespace connect

open cerr ccon cauth

/-- The struct `HttpConnectionResolver`: the two generic resolvers it composes. -/
structure HttpConnectionResolver where
  ConnectionResolver : ccon.ConnectionResolver
  CredentialResolver : cauth.CredentialResolver

/-- Method `validateConnection` (lines 85-123). -/
def validateConnection (correlationId : String) (connection : Option ConnectionParams)
    (credential : Option CredentialParams) : Option ApplicationError :=
  match connection with
  | none => some (NewConfigError correlationId "NO_CONNECTION" "HTTP connection is not set")
  | some connection =>
    let uri := connection.Uri
    if uri != "" then
      none
    else
      let protocol := connection.Protocol
      if "http" != protocol && "https" != protocol then
        some ((NewConfigError correlationId "WRONG_PROTOCOL"
          "Protocol is not supported by REST connection").WithDetails "protocol" protocol)
      else
        let host := connection.Host
        if host == "" then
          some (NewConfigError correlationId "NO_HOST" "Connection host is not set")
        else
          let port := connection.Port
          if port == 0 then
            some (NewConfigError correlationId "NO_PORT" "Connection port is not set")
          else if protocol == "https" then
            match credential with
            | none =>
              some (NewConfigError correlationId "NO_CREDENTIAL"
                "SSL certificates are not configured for HTTPS protocol")
            | some credential =>
              if credential.GetAsNullableString "ssl_key_file" == none then
                some (NewConfigError correlationId "NO_SSL_KEY_FILE"
                  "SSL key file is not configured in credentials")
              else if credential.GetAsNullableString "ssl_crt_file" == none then
                some (NewConfigError correlationId "NO_SSL_CRT_FILE"
                  "SSL crt file is not configured in credentials")
              else
                none
          else
            none

/-- Method `updateConnection` (lines 125-152). The outer `none` is the
run-time panic of reading `address.Scheme` when `url.Parse` has failed and
`address` is nil; otherwise the result is the descriptor behind the pointer
after the call. -/
def updateConnection (connection : Option ConnectionParams) :
    Option (Option ConnectionParams) :=
  match connection with
  | none => some none
  | some connection =>
    let uri := connection.Uri
    if uri == "" then
      let protocol := connection.Protocol
      let host := connection.Host
      let port := connection.Port
      let uri := protocol ++ "://" ++ host
      let uri := if port != 0 then uri ++ ":" ++ strconv.Itoa port else uri
      some (some (connection.SetUri uri))
    else
      match url.Parse uri with
      | none => none
      | some address =>
        let protocol := address.Scheme
        let connection := connection.SetProtocol protocol
        let connection := connection.SetHost address.Hostname
        let port := (strconv.Atoi address.Port).1
        some (some (connection.SetPort port))

/-- Method `updateConnection` on a non-null descriptor, followed statement by
statement: the descriptor behind the pointer when the call ends, and whether
the call ended by the panic of line 145. That line stands before every setter
call of its branch, so a call that panics has written nothing. -/
def updateConnectionInPlace (connection : ConnectionParams) : ConnectionParams × Bool :=
  let uri := connection.Uri
  if uri == "" then
    let protocol := connection.Protocol
    let host := connection.Host
    let port := connection.Port
    let uri := protocol ++ "://" ++ host
    let uri := if port != 0 then uri ++ ":" ++ strconv.Itoa port else uri
    (connection.SetUri uri, false)
  else
    match url.Parse uri with
    | none => (connection, true)
    | some address =>
      let protocol := address.Scheme
      let connection := connection.SetProtocol protocol
      let connection := connection.SetHost address.Hostname
      let port := (strconv.Atoi address.Port).1
      (connection.SetPort port, false)

/-- Method `Resolve` (lines 161-177): the returned triple, `none` when the
call panics. -/
def Resolve (c : HttpConnectionResolver) (correlationId : String) :
    Option (Option ConnectionParams × Option CredentialParams × Option ApplicationError) :=
  let connection := (c.ConnectionResolver.Resolve correlationId).1
  match (c.ConnectionResolver.Resolve correlationId).2 with
  | some err => some (none, none, some err)
  | none =>
    let credential := (c.CredentialResolver.Lookup correlationId).1
    let err := (c.CredentialResolver.Lookup correlationId).2
    let err := if err = none then validateConnection correlationId connection credential
      else err
    if err = none ∧ connection ≠ none then
      match updateConnection connection with
      | none => none
      | some connection => some (connection, credential, err)
    else some (connection, credential, err)

/-- The loop of `ResolveAll` (lines 198-205) over the remaining descriptors,
started with the error recorded so far: the descriptors after the loop and
the final error, `none` when an iteration panics. -/
def resolveAllLoop (correlationId : String) (credential : Option CredentialParams) :
    List (Option ConnectionParams) → Option ApplicationError →
      Option (List (Option ConnectionParams) × Option ApplicationError)
  | [], err => some ([], err)
  | connection :: rest, err =>
    let err := if err = none then validateConnection correlationId connection credential
      else err
    if err = none ∧ connection ≠ none then
      match updateConnection connection with
      | none => none
      | some connection =>
        (resolveAllLoop correlationId credential rest err).map
          (fun r => (connection :: r.1, r.2))
    else
      (resolveAllLoop correlationId credential rest err).map
        (fun r => (connection :: r.1, r.2))

/-- Method `ResolveAll` (lines 186-207): the returned triple, `none` when the
call panics. The outer `none` of the first component is the nil slice. -/
def ResolveAll (c : HttpConnectionResolver) (correlationId : String) :
    Option (Option (List (Option ConnectionParams)) × Option CredentialParams
      × Option ApplicationError) :=
  let connections := (c.ConnectionResolver.ResolveAll correlationId).1
  match (c.ConnectionResolver.ResolveAll correlationId).2 with
  | some err => some (none, none, some err)
  | none =>
    let credential := (c.CredentialResolver.Lookup correlationId).1
    let err := (c.CredentialResolver.Lookup correlationId).2
    let connections :=
      match connections with
      | none => []
      | some connections => connections
    match resolveAllLoop correlationId credential connections err with
    | none => none
    | some r => some (some r.1, credential, r.2)

/-- Method `Register` (lines 217-234): the returned error, and the calls made
to the generic resolver's `Register`, each with its two arguments. -/
def Register (c : HttpConnectionResolver) (correlationId : String) :
    Option ApplicationError × List (String × Option ConnectionParams) :=
  let connection := (c.ConnectionResolver.Resolve correlationId).1
  match (c.ConnectionResolver.Resolve correlationId).2 with
  | some err => (some err, [])
  | none =>
    let credential := (c.CredentialResolver.Lookup correlationId).1
    let err := (c.CredentialResolver.Lookup correlationId).2
    let err := if err = none then validateConnection correlationId connection credential
      else err
    match err with
    | none =>
      (c.ConnectionResolver.Register correlationId connection,
        [(correlationId, connection)])
    | some err => (some err, [])

/-- A scheme that `url.Parse` reads back as it is written: a lower-case
letter followed by lower-case letters, digits, `+`, `-` or `.`. -/
def lowerScheme (s : String) : Bool :=
  match s.data with
  | [] => false
  | c :: cs =>
    ('a' ≤ c && c ≤ 'z') &&
      cs.all (fun c => ('a' ≤ c && c ≤ 'z') || ('0' ≤ c && c ≤ '9')
        || c == '+' || c == '-' || c == '.')

/-- A host that `url.Parse` reads back as it is written: each of its
characters is an unreserved character of a URI, that is an ASCII letter, a
digit, or one of `-`, `.`, `_`, `~`. -/
def plainHost (s : String) : Bool :=
  s.data.all (fun c => ('a' ≤ c && c ≤ 'z') || ('A' ≤ c && c ≤ 'Z') || ('0' ≤ c && c ≤ '9')
    || c == '-' || c == '.' || c == '_' || c == '~')

/-- A resolver whose generic resolvers answer every call with the same
results: `one` for `Resolve`, `all` for `ResolveAll`, `credential` for `Lookup`
and `registered` for `Register`. -/
def staticResolver (one : Option ConnectionParams × Option ApplicationError)
    (all : Option (List (Option ConnectionParams)) × Option ApplicationError)
    (credential : Option CredentialParams × Option ApplicationError)
    (registered : Option ApplicationError) : HttpConnectionResolver :=
  { ConnectionResolver :=
      { Resolve := fun _ => one, ResolveAll := fun _ => all,
        Register := fun _ _ => registered },
    CredentialResolver := { Lookup := fun _ => credential } }

/-- The code of an error result, `none` for the nil error. -/
def errorCode (err : Option ApplicationError) : Option String :=
  err.map (fun e => e.code)

end connect

/-! ## Characters and decimal numbers -/

theorem char_le_iff (a b : Char) : a ≤ b ↔ a.toNat ≤ b.toNat := Iff.rfl

theorem char_lt_iff (a b : Char) : a < b ↔ a.toNat < b.toNat := Iff.rfl

theorem char_eq_iff (a b : Char) : a = b ↔ a.toNat = b.toNat := by
  constructor
  · intro h; rw [h]
  · intro h
    have := congrArg Char.ofNat h
    simpa using this

/-- A decimal digit character and its value. -/
theorem digitChar_decimal (d : Nat) (h : d < 10) :
    ('0' ≤ Nat.digitChar d ∧ Nat.digitChar d ≤ '9') ∧
      (Nat.digitChar d).toNat - '0'.toNat = d := by
  interval_cases d <;> decide

namespace strconv

theorem toDigitsCore_decimal (fuel : Nat) : ∀ (n : Nat) (ds : List Char),
    (∀ c ∈ ds, '0' ≤ c ∧ c ≤ '9') →
    ∀ c ∈ Nat.toDigitsCore 10 fuel n ds, '0' ≤ c ∧ c ≤ '9' := by
  induction fuel with
  | zero => intro n ds h; simpa [Nat.toDigitsCore] using h
  | succ fuel ih =>
    intro n ds h
    have hd := (digitChar_decimal (n % 10) (Nat.mod_lt _ (by decide))).1
    have hds : ∀ c ∈ Nat.digitChar (n % 10) :: ds, '0' ≤ c ∧ c ≤ '9' := by
      intro c hc
      rcases List.mem_cons.1 hc with rfl | hc
      · exact hd
      · exact h c hc
    unfold Nat.toDigitsCore
    by_cases hz : n / 10 = 0
    · simpa [hz] using hds
    · simp only [hz, if_false]
      exact ih _ _ hds

theorem toDigits_decimal (n : Nat) : ∀ c ∈ Nat.toDigits 10 n, '0' ≤ c ∧ c ≤ '9' :=
  toDigitsCore_decimal _ _ _ (by simp)

theorem parseDigits_toDigitsCore (fuel : Nat) : ∀ (n : Nat) (ds : List Char),
    n < fuel →
    parseDigits (Nat.toDigitsCore 10 fuel n ds) 0 = parseDigits ds n := by
  induction fuel with
  | zero => intro n ds h; omega
  | succ fuel ih =>
    intro n ds h
    have hd := digitChar_decimal (n % 10) (Nat.mod_lt _ (by decide))
    unfold Nat.toDigitsCore
    by_cases hz : n / 10 = 0
    · simp only [hz, if_true]
      have hn : n % 10 = n := by omega
      simp only [parseDigits, hd.1, and_self, if_true, hd.2]
      rw [hn]; simp
    · simp only [hz, if_false]
      rw [ih _ _ (by omega)]
      simp only [parseDigits, hd.1, and_self, if_true, hd.2]
      congr 1
      omega

theorem parseDigits_toDigits (n : Nat) : parseDigits (Nat.toDigits 10 n) 0 = some n := by
  unfold Nat.toDigits
  rw [parseDigits_toDigitsCore _ _ _ (by omega)]
  rfl

theorem toDigits_ne_nil (n : Nat) : Nat.toDigits 10 n ≠ [] := by
  intro h
  have := parseDigits_toDigits n
  have h2 := congrArg List.length h
  unfold Nat.toDigits Nat.toDigitsCore at h
  by_cases hz : n / 10 = 0
  · simp [hz] at h
  · simp only [hz, if_false] at h
    have := Nat.toDigitsCore_lens_eq 10 n (n / 10) (Nat.digitChar (n % 10)) []
    rw [h] at this
    simp at this

/-- Reading back the decimal text of a positive number that fits the type. -/
theorem Atoi_toDigits (n : Nat) (h : n < 2 ^ 63) :
    Atoi (String.mk (Nat.toDigits 10 n)) = ((n : Int), false) := by
  have hne := toDigits_ne_nil n
  have hdec := toDigits_decimal n
  have hp := parseDigits_toDigits n
  unfold Atoi
  cases hd : Nat.toDigits 10 n with
  | nil => exact absurd hd hne
  | cons c cs =>
    rw [hd] at hdec hp
    have hc := hdec c (List.mem_cons_self _ _)
    have h1 : (c == '+') = false := by
      rw [beq_eq_false_iff_ne, Ne, char_eq_iff]
      have := (char_le_iff _ _).1 hc.1
      have e0 : '0'.toNat = 48 := by decide
      have e1 : '+'.toNat = 43 := by decide
      omega
    have h2 : (c == '-') = false := by
      rw [beq_eq_false_iff_ne, Ne, char_eq_iff]
      have := (char_le_iff _ _).1 hc.1
      have e0 : '0'.toNat = 48 := by decide
      have e1 : '-'.toNat = 45 := by decide
      omega
    have h3 : ¬ (n ≥ 2 ^ 63) := by omega
    have h4 : n < 9223372036854775808 := by omega
    simp [h1, h2, hp, h4]

end strconv

/-- The text of `Itoa` is the decimal text of the integer. -/
theorem strconv.Itoa_eq_toString (i : Int) : strconv.Itoa i = toString i := by
  cases i with
  | ofNat n =>
    have h : ¬ (Int.ofNat n < 0) := by simp
    simp only [strconv.Itoa, h, if_false]
    rfl
  | negSucc n =>
    have h : Int.negSucc n < 0 := Int.negSucc_lt_zero n
    simp only [strconv.Itoa, h, if_true]
    rfl

/-! ## Validation -/

namespace connect

open cerr ccon cauth

/-- The credential getter never returns nil. -/
theorem GetAsNullableString_isSome (credential : CredentialParams) (key : String) :
    credential.GetAsNullableString key = some ((credential.values.lookup key).getD "") :=
  rfl

/-- With empty uri, protocol "https", a host and a port, every credential that
is not null passes validation: the two file checks read a getter that never
returns nil. -/
theorem validateConnection_https_with_credential (correlationId : String)
    (connection : ConnectionParams) (credential : CredentialParams)
    (huri : connection.uri = "") (hprotocol : connection.protocol = "https")
    (hhost : connection.host ≠ "") (hport : connection.port ≠ 0) :
    validateConnection correlationId (some connection) (some credential) = none := by
  obtain ⟨protocol, host, port, uri, others⟩ := connection
  simp only at huri hprotocol hhost hport
  subst huri; subst hprotocol
  simp [validateConnection, ConnectionParams.Uri, ConnectionParams.Protocol,
    ConnectionParams.Host, ConnectionParams.Port, hhost, hport,
    CredentialParams.GetAsNullableString]

/-- The checks of `validateConnection` that precede the credential files, on a
non-null connection with empty uri: the error is that of the first failing
check in the order protocol, host, port, credential present; protocol "ftp"
with empty host and port 0 gives WRONG_PROTOCOL. -/
theorem validateConnection_check_order (correlationId : String)
    (connection : ConnectionParams) (credential : Option CredentialParams)
    (huri : connection.uri = "") :
    (¬ (connection.protocol = "http" ∨ connection.protocol = "https") →
      errorCode (validateConnection correlationId (some connection) credential)
        = some "WRONG_PROTOCOL") ∧
    ((connection.protocol = "http" ∨ connection.protocol = "https") →
      connection.host = "" →
      errorCode (validateConnection correlationId (some connection) credential)
        = some "NO_HOST") ∧
    ((connection.protocol = "http" ∨ connection.protocol = "https") →
      connection.host ≠ "" → connection.port = 0 →
      errorCode (validateConnection correlationId (some connection) credential)
        = some "NO_PORT") ∧
    (connection.protocol = "https" → connection.host ≠ "" → connection.port ≠ 0 →
      credential = none →
      errorCode (validateConnection correlationId (some connection) credential)
        = some "NO_CREDENTIAL") ∧
    (connection.protocol = "http" → connection.host ≠ "" → connection.port ≠ 0 →
      validateConnection correlationId (some connection) credential = none) ∧
    (connection.protocol = "ftp" → connection.host = "" → connection.port = 0 →
      errorCode (validateConnection correlationId (some connection) credential)
        = some "WRONG_PROTOCOL") := by
  obtain ⟨protocol, host, port, uri, others⟩ := connection
  simp only at huri
  subst huri
  refine ⟨?_, ?_, ?_, ?_, ?_, ?_⟩
  · intro h
    have h1 : ¬ "http" = protocol := fun e => h (Or.inl e.symm)
    have h2 : ¬ "https" = protocol := fun e => h (Or.inr e.symm)
    simp [validateConnection, errorCode, ConnectionParams.Uri, ConnectionParams.Protocol,
      h1, h2, NewConfigError, ApplicationError.WithDetails]
  · rintro (h | h) hh <;> simp only at h hh <;> subst h <;> subst hh <;>
      simp [validateConnection, errorCode, ConnectionParams.Uri, ConnectionParams.Protocol,
        ConnectionParams.Host, NewConfigError]
  · rintro (h | h) hh hp <;> simp only at h hh hp <;> subst h <;> subst hp <;>
      simp [validateConnection, errorCode, ConnectionParams.Uri, ConnectionParams.Protocol,
        ConnectionParams.Host, ConnectionParams.Port, NewConfigError, hh]
  · intro h hh hp hc
    simp only at h hh hp
    subst h; subst hc
    simp [validateConnection, errorCode, ConnectionParams.Uri, ConnectionParams.Protocol,
      ConnectionParams.Host, ConnectionParams.Port, NewConfigError, hh, hp]
  · intro h hh hp
    simp only at h hh hp
    subst h
    simp [validateConnection, ConnectionParams.Uri, ConnectionParams.Protocol,
      ConnectionParams.Host, ConnectionParams.Port, hh, hp]
  · intro h _ _
    simp only at h
    subst h
    simp [validateConnection, errorCode, ConnectionParams.Uri, ConnectionParams.Protocol,
      NewConfigError, ApplicationError.WithDetails]

/-- C1, at the failing input: for the connection https, "h", 1 with empty uri
and a credential that holds no entry at all, the getter of ssl_key_file
returns the empty text and not nil, and `validateConnection` returns no
error where the order of checks asks for NO_SSL_KEY_FILE. -/
theorem validateConnection_missing_key_file_unreported :
    (⟨[]⟩ : CredentialParams).GetAsNullableString "ssl_key_file" = some "" ∧
    validateConnection "123" (some ⟨"https", "h", 1, "", []⟩) (some ⟨[]⟩) = none := by
  decide

/-- C2: a connection whose uri is not empty validates without error,
whatever its protocol, host and port and whatever the credential. -/
theorem validateConnection_uri_trusted (correlationId : String)
    (connection : ConnectionParams) (credential : Option CredentialParams)
    (huri : connection.uri ≠ "") :
    validateConnection correlationId (some connection) credential = none := by
  simp [validateConnection, ConnectionParams.Uri, huri]

/-- Witness of C2: protocol "ftp", empty host, port 0 and a null credential
behind a non-empty uri. -/
theorem validateConnection_uri_trusted_witness :
    (⟨"ftp", "", 0, "x", []⟩ : ConnectionParams).uri ≠ "" ∧
    validateConnection "123" (some ⟨"ftp", "", 0, "x", []⟩) none = none :=
  ⟨by decide, validateConnection_uri_trusted "123" ⟨"ftp", "", 0, "x", []⟩ none (by decide)⟩

/-- C3, at the failing inputs: the connection https, "h", 1 with empty uri
passes validation with a credential that holds only ssl_crt_file and with one
that holds only ssl_key_file, where NO_SSL_KEY_FILE and NO_SSL_CRT_FILE are
asked for; with a null credential it is refused with NO_CREDENTIAL and with
both files it passes. -/
theorem validateConnection_https_files_unchecked :
    validateConnection "123" (some ⟨"https", "h", 1, "", []⟩)
      (some ⟨[("ssl_crt_file", "c")]⟩) = none ∧
    validateConnection "123" (some ⟨"https", "h", 1, "", []⟩)
      (some ⟨[("ssl_key_file", "k")]⟩) = none ∧
    errorCode (validateConnection "123" (some ⟨"https", "h", 1, "", []⟩) none)
      = some "NO_CREDENTIAL" ∧
    validateConnection "123" (some ⟨"https", "h", 1, "", []⟩)
      (some ⟨[("ssl_key_file", "k"), ("ssl_crt_file", "c")]⟩) = none := by
  decide

end connect

/-! ## Text splitting -/

namespace strings

theorem Cut_absent (s : List Char) (sep : Char) (h : ∀ c ∈ s, c ≠ sep) :
    Cut s sep = (s, [], false) := by
  have hd : s.dropWhile (fun c => c != sep) = [] := by
    rw [List.dropWhile_eq_nil_iff]
    intro c hc
    simpa using h c hc
  simp only [Cut, hd]

theorem takeWhile_absent (s : List Char) (sep : Char) (h : ∀ c ∈ s, c ≠ sep) :
    s.takeWhile (fun c => c != sep) = s ∧ s.dropWhile (fun c => c != sep) = [] := by
  constructor
  · rw [List.takeWhile_eq_self_iff]
    intro c hc
    simpa using h c hc
  · rw [List.dropWhile_eq_nil_iff]
    intro c hc
    simpa using h c hc

theorem LastIndex_absent (sep : Char) : ∀ s : List Char, (∀ c ∈ s, c ≠ sep) →
    LastIndex sep s = none := by
  intro s
  induction s with
  | nil => intro _; rfl
  | cons x xs ih =>
    intro h
    have hx : x ≠ sep := h x (List.mem_cons_self _ _)
    have hxs := ih (fun c hc => h c (List.mem_cons_of_mem _ hc))
    simp [LastIndex, hxs, hx]

theorem LastIndex_last (sep : Char) (d : List Char) (hd : ∀ c ∈ d, c ≠ sep) :
    ∀ h : List Char, LastIndex sep (h ++ sep :: d) = some (h, d) := by
  intro h
  induction h with
  | nil => simp [LastIndex, LastIndex_absent sep d hd]
  | cons x xs ih =>
    show LastIndex sep (x :: (xs ++ sep :: d)) = some (x :: xs, d)
    simp only [LastIndex, ih]

end strings

/-! ## Parsing the address that `updateConnection` builds -/

namespace url

theorem unescapeCheck_host_plain : ∀ s : List Char,
    (∀ c ∈ s, c ≠ '%' ∧ (c.toNat < 128 → shouldEscapeHost c = false)) →
    unescapeCheck encoding.encodeHost s = true := by
  intro s
  induction s with
  | nil => intro _; rfl
  | cons x xs ih =>
    intro h
    have hx := h x (List.mem_cons_self _ _)
    have hxs := ih (fun c hc => h c (List.mem_cons_of_mem _ hc))
    have h2 : ¬ (x.toNat < 128 ∧ shouldEscapeHost x = true) := by
      rintro ⟨h3, h4⟩
      rw [hx.2 h3] at h4
      exact Bool.false_ne_true h4
    rw [unescapeCheck.eq_def]
    simp [hx.1, hxs, h2]

theorem unescape_host_plain (s : List Char)
    (h : ∀ c ∈ s, c ≠ '%' ∧ (c.toNat < 128 → shouldEscapeHost c = false)) :
    unescape encoding.encodeHost s = some s := by
  have hm : '%' ∉ s := fun hm => (h '%' hm).1 rfl
  have hc : s.contains '%' = false := by
    rw [Bool.eq_false_iff]
    intro hcon
    exact hm (List.elem_iff.1 hcon)
  unfold unescape
  rw [unescapeCheck_host_plain s h, hc]
  rfl

theorem getSchemeLoop_scheme (raw r : List Char) : ∀ (s : List Char) (i : Nat), 0 < i →
    (∀ c ∈ s, ('a' ≤ c ∧ c ≤ 'z') ∨ ('0' ≤ c ∧ c ≤ '9') ∨ c = '+' ∨ c = '-' ∨ c = '.') →
    getSchemeLoop raw i (s ++ ':' :: r) = some (raw.take (i + s.length), r) := by
  intro s
  induction s with
  | nil =>
    intro i hi _
    have hi0 : i ≠ 0 := by omega
    simp [getSchemeLoop, hi0]
  | cons x xs ih =>
    intro i hi h
    have hx := h x (List.mem_cons_self _ _)
    have hxs := ih (i + 1) (by omega) (fun c hc => h c (List.mem_cons_of_mem _ hc))
    have hi0 : i ≠ 0 := by omega
    have hlen : i + 1 + xs.length = i + (xs.length + 1) := by omega
    rw [hlen] at hxs
    rcases hx with hx | hx | hx | hx | hx
    · simp [getSchemeLoop, hx.1, hx.2, hxs]
    · by_cases hl : ('a' ≤ x ∧ x ≤ 'z') ∨ ('A' ≤ x ∧ x ≤ 'Z')
      · simp [getSchemeLoop, hl, hxs]
      · simp [getSchemeLoop, hl, hx.1, hx.2, hi0, hxs]
    · subst hx; simp [getSchemeLoop, hi0, hxs]
    · subst hx; simp [getSchemeLoop, hi0, hxs]
    · subst hx; simp [getSchemeLoop, hi0, hxs]

set_option maxRecDepth 100000 in
/-- The ASCII characters that may stand unescaped in a host are printable and
are none of `#`, `?`, `/`, `@`, `%`. -/
theorem shouldEscapeHost_ascii : ∀ n < 128, shouldEscapeHost (Char.ofNat n) = false →
    n ≠ 35 ∧ n ≠ 63 ∧ n ≠ 47 ∧ n ≠ 64 ∧ n ≠ 37 ∧ 32 ≤ n ∧ n ≠ 127 := by
  decide

/-- The codes of the characters of a plain host. -/
theorem plainHost_code (c : Char) (h : 128 ≤ c.toNat ∨ shouldEscapeHost c = false) :
    c.toNat ≠ 35 ∧ c.toNat ≠ 63 ∧ c.toNat ≠ 47 ∧ c.toNat ≠ 64 ∧ c.toNat ≠ 37 ∧
      32 ≤ c.toNat ∧ c.toNat ≠ 127 := by
  by_cases hc : c.toNat < 128
  · rcases h with h | h
    · omega
    · have := shouldEscapeHost_ascii c.toNat hc (by rw [Char.ofNat_toNat]; exact h)
      exact this
  · omega

/-- A character with a printable code other than that of `#` passes the tests
`Parse` makes before it looks for a scheme. -/
theorem code_tests (c : Char) (h1 : 32 ≤ c.toNat) (h2 : c.toNat ≠ 127) (h3 : c.toNat ≠ 35) :
    c ≠ '#' ∧ (c < ' ' || c == Char.ofNat 127) = false := by
  refine ⟨?_, ?_⟩
  · rw [Ne, char_eq_iff]
    have e : '#'.toNat = 35 := by decide
    omega
  · have e1 : ¬ c < ' ' := by
      rw [char_lt_iff]
      have e : ' '.toNat = 32 := by decide
      omega
    have e2 : ¬ c = Char.ofNat 127 := by
      rw [char_eq_iff]
      have e : (Char.ofNat 127).toNat = 127 := by decide
      omega
    simp [e1, e2]

/-- The codes of decimal digits. -/
theorem digit_code (c : Char) (h : '0' ≤ c ∧ c ≤ '9') : 48 ≤ c.toNat ∧ c.toNat ≤ 57 := by
  have h1 := (char_le_iff _ _).1 h.1
  have h2 := (char_le_iff _ _).1 h.2
  have e0 : '0'.toNat = 48 := by decide
  have e9 : '9'.toNat = 57 := by decide
  omega

/-- A character is told apart from a given one by its code. -/
theorem ne_of_code (c k : Char) (h : c.toNat ≠ k.toNat) : c ≠ k := by
  rw [Ne, char_eq_iff]; exact h

/-- Decimal digits stand unescaped in a host. -/
theorem digit_host (c : Char) (h : '0' ≤ c ∧ c ≤ '9') : shouldEscapeHost c = false := by
  simp [shouldEscapeHost, h.1, h.2]

/-- The codes of the characters of a lower-case scheme. -/
theorem scheme_code (c : Char)
    (h : ('a' ≤ c ∧ c ≤ 'z') ∨ ('0' ≤ c ∧ c ≤ '9') ∨ c = '+' ∨ c = '-' ∨ c = '.') :
    32 ≤ c.toNat ∧ c.toNat ≠ 127 ∧ c.toNat ≠ 35 ∧ ¬ (65 ≤ c.toNat ∧ c.toNat ≤ 90) := by
  rcases h with h | h | h | h | h
  · have h1 := (char_le_iff _ _).1 h.1
    have h2 := (char_le_iff _ _).1 h.2
    have ea : 'a'.toNat = 97 := by decide
    have ez : 'z'.toNat = 122 := by decide
    omega
  · have := digit_code c h
    omega
  · subst h; decide
  · subst h; decide
  · subst h; decide

/-- Lower-casing leaves a character alone that is not an upper-case letter. -/
theorem toLower_of_code (c : Char) (h : ¬ (65 ≤ c.toNat ∧ c.toNat ≤ 90)) :
    c.toLower = c := by
  unfold Char.toLower
  simp only [ge_iff_le]
  rw [if_neg h]

/-- Every character of the address `scheme://host:digits` is printable and
is not `#`. -/
theorem built_code (c : Char) (cs H D : List Char)
    (hc : 'a' ≤ c ∧ c ≤ 'z')
    (hcs : ∀ x ∈ cs,
      ('a' ≤ x ∧ x ≤ 'z') ∨ ('0' ≤ x ∧ x ≤ '9') ∨ x = '+' ∨ x = '-' ∨ x = '.')
    (hH : ∀ x ∈ H, 128 ≤ x.toNat ∨ shouldEscapeHost x = false)
    (hD : ∀ x ∈ D, '0' ≤ x ∧ x ≤ '9') :
    ∀ x ∈ c :: cs ++ ':' :: '/' :: '/' :: (H ++ ':' :: D),
      32 ≤ x.toNat ∧ x.toNat ≠ 127 ∧ x.toNat ≠ 35 := by
  intro x hx
  rcases List.mem_append.1 hx with hx | hx
  · have hs : ('a' ≤ x ∧ x ≤ 'z') ∨ ('0' ≤ x ∧ x ≤ '9') ∨ x = '+' ∨ x = '-' ∨ x = '.' := by
      rcases List.mem_cons.1 hx with rfl | hx
      · exact Or.inl hc
      · exact hcs x hx
    have := scheme_code x hs
    omega
  · rcases List.mem_cons.1 hx with rfl | hx
    · decide
    · rcases List.mem_cons.1 hx with rfl | hx
      · decide
      · rcases List.mem_cons.1 hx with rfl | hx
        · decide
        · rcases List.mem_append.1 hx with hx | hx
          · have := plainHost_code x (hH x hx)
            omega
          · rcases List.mem_cons.1 hx with rfl | hx
            · decide
            · have := digit_code x (hD x hx)
              omega

/-- The address `scheme://host:digits` with a lower-case scheme and a plain
host is parsed into exactly that scheme and the host text `host:digits`. -/
theorem parse_built (c : Char) (cs H D : List Char)
    (hc : 'a' ≤ c ∧ c ≤ 'z')
    (hcs : ∀ x ∈ cs,
      ('a' ≤ x ∧ x ≤ 'z') ∨ ('0' ≤ x ∧ x ≤ '9') ∨ x = '+' ∨ x = '-' ∨ x = '.')
    (hHb : ∀ x ∈ H, x ≠ '[')
    (hH : ∀ x ∈ H, 128 ≤ x.toNat ∨ shouldEscapeHost x = false)
    (hD : ∀ x ∈ D, '0' ≤ x ∧ x ≤ '9') :
    parse (c :: cs ++ ':' :: '/' :: '/' :: (H ++ ':' :: D)) =
      some { Scheme := String.mk (c :: cs), Opaque := "", Host := String.mk (H ++ ':' :: D),
             Path := "", RawQuery := "", Fragment := "" } := by
  -- the characters of the authority `host:digits`
  have hA : ∀ x ∈ H ++ ':' :: D, x.toNat ≠ 35 ∧ x.toNat ≠ 63 ∧ x.toNat ≠ 47 ∧
      x.toNat ≠ 64 ∧ x.toNat ≠ 37 ∧ 32 ≤ x.toNat ∧ x.toNat ≠ 127 := by
    intro x hx
    rcases List.mem_append.1 hx with hx | hx
    · exact plainHost_code x (hH x hx)
    · rcases List.mem_cons.1 hx with rfl | hx
      · decide
      · have := digit_code x (hD x hx)
        omega
  have hAesc : ∀ x ∈ H ++ ':' :: D,
      x ≠ '%' ∧ (x.toNat < 128 → shouldEscapeHost x = false) := by
    intro x hx
    refine ⟨ne_of_code x '%' (by have := hA x hx; have e : '%'.toNat = 37 := (by decide); omega), ?_⟩
    intro hlt
    rcases List.mem_append.1 hx with hx | hx
    · rcases hH x hx with h | h
      · omega
      · exact h
    · rcases List.mem_cons.1 hx with rfl | hx
      · decide
      · exact digit_host x (hD x hx)
  have hD58 : ∀ x ∈ D, x ≠ ':' := by
    intro x hx
    have := digit_code x (hD x hx)
    exact ne_of_code x ':' (by have e : ':'.toNat = 58 := (by decide); omega)
  have hAq : ∀ x ∈ H ++ ':' :: D, x ≠ '?' := fun x hx =>
    ne_of_code x '?' (by have := hA x hx; have e : '?'.toNat = 63 := (by decide); omega)
  have hAs : ∀ x ∈ H ++ ':' :: D, x ≠ '/' := fun x hx =>
    ne_of_code x '/' (by have := hA x hx; have e : '/'.toNat = 47 := (by decide); omega)
  have hAat : ∀ x ∈ H ++ ':' :: D, x ≠ '@' := fun x hx =>
    ne_of_code x '@' (by have := hA x hx; have e : '@'.toNat = 64 := (by decide); omega)
  -- the scheme
  have hscheme : ∀ x ∈ c :: cs,
      ('a' ≤ x ∧ x ≤ 'z') ∨ ('0' ≤ x ∧ x ≤ '9') ∨ x = '+' ∨ x = '-' ∨ x = '.' := by
    intro x hx
    rcases List.mem_cons.1 hx with rfl | hx
    · exact Or.inl hc
    · exact hcs x hx
  -- no control character
  have hctl : stringContainsCTLByte (c :: cs ++ ':' :: '/' :: '/' :: (H ++ ':' :: D)) = false := by
    unfold stringContainsCTLByte
    rw [List.any_eq_false]
    intro x hx
    have hcode := built_code c cs H D hc hcs hH hD x hx
    have := (code_tests x hcode.1 hcode.2.1 hcode.2.2).2
    simp [this]
  have hstar : (c :: cs ++ ':' :: '/' :: '/' :: (H ++ ':' :: D)) ≠ ['*'] := by
    intro h
    have := congrArg List.length h
    simp at this
  have hget : getScheme (c :: cs ++ ':' :: '/' :: '/' :: (H ++ ':' :: D)) =
      some (c :: cs, '/' :: '/' :: (H ++ ':' :: D)) := by
    unfold getScheme
    show getSchemeLoop _ 0 (c :: (cs ++ ':' :: '/' :: '/' :: (H ++ ':' :: D))) = _
    rw [getSchemeLoop]
    simp only [hc.1, hc.2, Bool.and_self, decide_True, Bool.true_or, if_true]
    rw [getSchemeLoop_scheme _ _ cs (0 + 1) (by omega) hcs]
    have : 0 + 1 + cs.length = (c :: cs).length := by simp; omega
    rw [this, List.take_left']
    rfl
  have hlower : List.map Char.toLower (c :: cs) = c :: cs := by
    have hall : ∀ x ∈ c :: cs, x.toLower = x := fun x hx =>
      toLower_of_code x (scheme_code x (hscheme x hx)).2.2.2
    generalize c :: cs = l at hall
    induction l with
    | nil => rfl
    | cons y ys ih =>
      rw [List.map_cons, hall y (List.mem_cons_self _ _),
        ih (fun x hx => hall x (List.mem_cons_of_mem _ hx))]
  -- the text after the scheme
  have hrestq : ∀ x ∈ '/' :: '/' :: (H ++ ':' :: D), x ≠ '?' := by
    intro x hx
    rcases List.mem_cons.1 hx with rfl | hx
    · decide
    · rcases List.mem_cons.1 hx with rfl | hx
      · decide
      · exact hAq x hx
  have hlast : ¬ (('/' :: '/' :: (H ++ ':' :: D)).getLast? = some '?') :=
    fun h => hrestq _ (List.mem_of_getLast?_eq_some h) rfl
  have hcut := strings.Cut_absent _ '?' hrestq
  have htake := strings.takeWhile_absent _ '/' hAs
  have hat := strings.LastIndex_absent '@' _ hAat
  have hcolon := strings.LastIndex_last ':' D hD58 H
  have hvalid : validOptionalPort (':' :: D) = true := by
    simp only [validOptionalPort, beq_self_eq_true, Bool.true_and, List.all_eq_true]
    intro x hx
    have h1 : ¬ x < '0' := not_lt.2 (hD x hx).1
    have h2 : ¬ x > '9' := not_lt.2 (hD x hx).2
    simp [h1, h2]
  have hopen : strings.LastIndex '[' (H ++ ':' :: D) = none := by
    apply strings.LastIndex_absent
    intro x hx
    rcases List.mem_append.1 hx with hx | hx
    · exact hHb x hx
    · rcases List.mem_cons.1 hx with rfl | hx
      · decide
      · have := digit_code x (hD x hx)
        exact ne_of_code x '[' (by have e : '['.toNat = 91 := (by decide); omega)
  have hunesc := unescape_host_plain _ hAesc
  have hhost : parseHost (H ++ ':' :: D) = some (H ++ ':' :: D) := by
    unfold parseHost
    rw [hopen]
    simp only [hcolon]
    simp only [hvalid, hunesc, Bool.not_true, Bool.false_eq_true, if_false]
  have hauth : parseAuthority (H ++ ':' :: D) = some (H ++ ':' :: D) := by
    unfold parseAuthority
    rw [hat]
    exact hhost
  have hpath : unescape encoding.encodePath [] = some [] := by
    decide
  have htail : parseAuthorityAndPath (c :: cs) [] ('/' :: '/' :: (H ++ ':' :: D)) =
      some { Scheme := String.mk (c :: cs), Opaque := "",
             Host := String.mk (H ++ ':' :: D), Path := "", RawQuery := "",
             Fragment := "" } := by
    unfold parseAuthorityAndPath
    simp [htake.1, htake.2, hauth, hpath]
  unfold parse
  rw [hctl, if_neg Bool.false_ne_true, if_neg hstar, hget]
  simp only [hlower, hlast, hcut, false_and, Bool.decide_false, if_false]
  simp [htail]

/-- The host text `host:digits` of a plain host splits into `host` and `digits`. -/
theorem splitHostPort_built (H D : List Char) (hH0 : H.head? ≠ some '[')
    (hD : ∀ x ∈ D, '0' ≤ x ∧ x ≤ '9') :
    splitHostPort (H ++ ':' :: D) = (H, D) := by
  have hD58 : ∀ x ∈ D, x ≠ ':' := by
    intro x hx
    have := digit_code x (hD x hx)
    exact ne_of_code x ':' (by have e : ':'.toNat = 58 := (by decide); omega)
  have hcolon := strings.LastIndex_last ':' D hD58 H
  have hvalid : validOptionalPort (':' :: D) = true := by
    simp only [validOptionalPort, beq_self_eq_true, Bool.true_and, List.all_eq_true]
    intro x hx
    have h1 : ¬ x < '0' := not_lt.2 (hD x hx).1
    have h2 : ¬ x > '9' := not_lt.2 (hD x hx).2
    simp [h1, h2]
  unfold splitHostPort
  simp [hcolon, hvalid, hH0]

/-- What `lowerScheme` says of the characters of a scheme. -/
theorem lowerScheme_chars (p : String) (h : connect.lowerScheme p = true) :
    ∃ c cs, p = String.mk (c :: cs) ∧ ('a' ≤ c ∧ c ≤ 'z') ∧
      ∀ x ∈ cs, ('a' ≤ x ∧ x ≤ 'z') ∨ ('0' ≤ x ∧ x ≤ '9') ∨ x = '+' ∨ x = '-' ∨ x = '.' := by
  obtain ⟨l⟩ := p
  cases l with
  | nil => simp [connect.lowerScheme] at h
  | cons c cs =>
    simp only [connect.lowerScheme, Bool.and_eq_true, decide_eq_true_eq, List.all_eq_true,
      Bool.or_eq_true, beq_iff_eq] at h
    refine ⟨c, cs, rfl, h.1, ?_⟩
    intro x hx
    rcases h.2 x hx with (((h1 | h1) | h1) | h1) | h1
    · exact Or.inl h1
    · exact Or.inr (Or.inl h1)
    · exact Or.inr (Or.inr (Or.inl h1))
    · exact Or.inr (Or.inr (Or.inr (Or.inl h1)))
    · exact Or.inr (Or.inr (Or.inr (Or.inr h1)))

/-- An unreserved character may stand unescaped in a host and is not `[`. -/
theorem unreserved_host (x : Char)
    (h : ('a' ≤ x ∧ x ≤ 'z') ∨ ('A' ≤ x ∧ x ≤ 'Z') ∨ ('0' ≤ x ∧ x ≤ '9') ∨ x = '-' ∨
      x = '.' ∨ x = '_' ∨ x = '~') :
    shouldEscapeHost x = false ∧ x ≠ '[' := by
  rcases h with h | h | h | h | h | h | h
  · refine ⟨by simp [shouldEscapeHost, h.1, h.2], ?_⟩
    have h1 := (char_le_iff _ _).1 h.1
    have ea : 'a'.toNat = 97 := by decide
    exact ne_of_code x '[' (by have e : '['.toNat = 91 := (by decide); omega)
  · refine ⟨by simp [shouldEscapeHost, h.1, h.2], ?_⟩
    have h2 := (char_le_iff _ _).1 h.2
    have ez : 'Z'.toNat = 90 := by decide
    exact ne_of_code x '[' (by have e : '['.toNat = 91 := (by decide); omega)
  · refine ⟨digit_host x h, ?_⟩
    have := digit_code x h
    exact ne_of_code x '[' (by have e : '['.toNat = 91 := (by decide); omega)
  · subst h; decide
  · subst h; decide
  · subst h; decide
  · subst h; decide

/-- What `plainHost` says of the characters of a host. -/
theorem plainHost_chars (s : String) (h : connect.plainHost s = true) :
    s.data.head? ≠ some '[' ∧ (∀ x ∈ s.data, x ≠ '[') ∧
      ∀ x ∈ s.data, 128 ≤ x.toNat ∨ shouldEscapeHost x = false := by
  simp only [connect.plainHost, Bool.and_eq_true, List.all_eq_true,
    Bool.or_eq_true, decide_eq_true_eq, beq_iff_eq] at h
  have hall : ∀ x ∈ s.data, shouldEscapeHost x = false ∧ x ≠ '[' := by
    intro x hx
    apply unreserved_host
    rcases h x hx with (((((h1 | h1) | h1) | h1) | h1) | h1) | h1
    · exact Or.inl h1
    · exact Or.inr (Or.inl h1)
    · exact Or.inr (Or.inr (Or.inl h1))
    · exact Or.inr (Or.inr (Or.inr (Or.inl h1)))
    · exact Or.inr (Or.inr (Or.inr (Or.inr (Or.inl h1))))
    · exact Or.inr (Or.inr (Or.inr (Or.inr (Or.inr (Or.inl h1)))))
    · exact Or.inr (Or.inr (Or.inr (Or.inr (Or.inr (Or.inr h1)))))
  refine ⟨?_, fun x hx => (hall x hx).2, fun x hx => Or.inr (hall x hx).1⟩
  intro h0
  have hm : '[' ∈ s.data := List.mem_of_mem_head? (by rw [h0]; rfl)
  exact (hall _ hm).2 rfl

/-- The address `protocol://host:digits` built from a lower-case scheme, a
plain host and decimal digits parses without error into that scheme and the
host text `host:digits`. -/
theorem Parse_built (protocol host : String) (D : List Char)
    (hp : connect.lowerScheme protocol = true) (hh : connect.plainHost host = true)
    (hD : ∀ x ∈ D, '0' ≤ x ∧ x ≤ '9') :
    Parse (protocol ++ "://" ++ host ++ ":" ++ String.mk D) =
      some { Scheme := protocol, Opaque := "", Host := host ++ ":" ++ String.mk D,
             Path := "", RawQuery := "", Fragment := "" } := by
  obtain ⟨c, cs, rfl, hc, hcs⟩ := lowerScheme_chars protocol hp
  obtain ⟨_, hHb, hH⟩ := plainHost_chars host hh
  obtain ⟨H⟩ := host
  simp only at hHb hH
  have e1 : (String.mk (c :: cs) ++ "://" ++ String.mk H ++ ":" ++ String.mk D) =
      String.mk (c :: cs ++ ':' :: '/' :: '/' :: (H ++ ':' :: D)) := by
    apply String.ext
    simp [String.data_append]
  have e2 : (String.mk H ++ ":" ++ String.mk D) = String.mk (H ++ ':' :: D) := by
    apply String.ext
    simp [String.data_append]
  rw [e1, e2]
  have hsharp : ∀ x ∈ c :: cs ++ ':' :: '/' :: '/' :: (H ++ ':' :: D), x ≠ '#' := by
    intro x hx
    have hcode := built_code c cs H D hc hcs hH hD x hx
    exact (code_tests x hcode.1 hcode.2.1 hcode.2.2).1
  unfold Parse
  simp only [strings.Cut_absent _ '#' hsharp, parse_built c cs H D hc hcs hHb hH hD, if_true]

/-- The host name and the port text that `Hostname()` and `Port()` read from
the parsed address of `Parse_built`. -/
theorem Hostname_Port_built (protocol host : String) (D : List Char)
    (hh : connect.plainHost host = true) (hD : ∀ x ∈ D, '0' ≤ x ∧ x ≤ '9') :
    URL.Hostname ⟨protocol, "", host ++ ":" ++ String.mk D, "", "", ""⟩ = host ∧
    URL.Port ⟨protocol, "", host ++ ":" ++ String.mk D, "", "", ""⟩ = String.mk D := by
  obtain ⟨hH0, _, _⟩ := plainHost_chars host hh
  obtain ⟨H⟩ := host
  simp only at hH0
  have e2 : (String.mk H ++ ":" ++ String.mk D).data = H ++ ':' :: D := by
    simp [String.data_append]
  simp only [URL.Hostname, URL.Port, e2, splitHostPort_built H D hH0 hD, and_self]

end url

/-! ## Normalization -/

namespace connect

open cerr ccon cauth

/-- What `updateConnection` does to a connection with empty uri. -/
theorem updateConnection_of_empty_uri (protocol host : String) (port : Int)
    (others : List (String × String)) :
    updateConnection (some ⟨protocol, host, port, "", others⟩)
      = some (some ⟨protocol, host, port,
          if port ≠ 0 then protocol ++ "://" ++ host ++ ":" ++ toString port
          else protocol ++ "://" ++ host, others⟩) := by
  by_cases hport : port = 0
  · subst hport
    simp [updateConnection, ConnectionParams.Uri, ConnectionParams.Protocol,
      ConnectionParams.Host, ConnectionParams.Port, ConnectionParams.SetUri]
  · simp [updateConnection, ConnectionParams.Uri, ConnectionParams.Protocol,
      ConnectionParams.Host, ConnectionParams.Port, ConnectionParams.SetUri, hport,
      strconv.Itoa_eq_toString]

/-- C4: on a connection with empty uri, `updateConnection` stores the uri
protocol ++ "://" ++ host ++ ":" ++ decimal(port) when the port is not 0 and
protocol ++ "://" ++ host when it is 0, and leaves the other fields as they
are; http, localhost, 3000 gives "http://localhost:3000". -/
theorem updateConnection_builds_uri (connection : ConnectionParams)
    (huri : connection.uri = "") :
    (connection.port ≠ 0 →
      updateConnection (some connection) = some (some { connection with
        uri := connection.protocol ++ "://" ++ connection.host ++ ":"
          ++ toString connection.port })) ∧
    (connection.port = 0 →
      updateConnection (some connection) = some (some { connection with
        uri := connection.protocol ++ "://" ++ connection.host })) ∧
    updateConnection (some ⟨"http", "localhost", 3000, "", []⟩)
      = some (some ⟨"http", "localhost", 3000, "http://localhost:3000", []⟩) := by
  obtain ⟨protocol, host, port, uri, others⟩ := connection
  simp only at huri
  subst huri
  refine ⟨?_, ?_, by decide⟩
  · intro hport
    simp only at hport
    rw [updateConnection_of_empty_uri, if_pos hport]
  · intro hport
    simp only at hport
    rw [updateConnection_of_empty_uri, if_neg (not_not.2 hport)]

/-- Witness of C4 at the connection of the tests. -/
theorem updateConnection_builds_uri_witness :
    (⟨"http", "localhost", 3000, "", []⟩ : ConnectionParams).uri = "" ∧
    updateConnection (some ⟨"http", "localhost", 3000, "", []⟩)
      = some (some ⟨"http", "localhost", 3000, "http://localhost:3000", []⟩) :=
  ⟨rfl, (updateConnection_builds_uri ⟨"http", "localhost", 3000, "", []⟩ rfl).2.2⟩

/-- C5, as stated, fails: an upper-case protocol comes back in lower case, a
host with a slash comes back cut at the slash with port 0, and the address
built with a negative port is not parsed at all, so that the second call
panics. -/
theorem updateConnection_round_trip_counterexample :
    (updateConnection (some ⟨"HTTP", "localhost", 3000, "", []⟩)
        = some (some ⟨"HTTP", "localhost", 3000, "HTTP://localhost:3000", []⟩) ∧
      updateConnection (some ⟨"", "", 0, "HTTP://localhost:3000", []⟩)
        = some (some ⟨"http", "localhost", 3000, "HTTP://localhost:3000", []⟩)) ∧
    (updateConnection (some ⟨"http", "a/b", 80, "", []⟩)
        = some (some ⟨"http", "a/b", 80, "http://a/b:80", []⟩) ∧
      updateConnection (some ⟨"", "", 0, "http://a/b:80", []⟩)
        = some (some ⟨"http", "a", 0, "http://a/b:80", []⟩)) ∧
    (updateConnection (some ⟨"http", "localhost", -1, "", []⟩)
        = some (some ⟨"http", "localhost", -1, "http://localhost:-1", []⟩) ∧
      updateConnection (some ⟨"", "", 0, "http://localhost:-1", []⟩) = none) := by
  decide

/-- C5, amended: for a protocol in lower-case scheme form, a host made of
unreserved characters only (ASCII letters, digits, `-`, `.`, `_`, `~`) and a
port with 0 < port < 2^63, `updateConnection` builds the uri
protocol ++ "://" ++ host ++ ":" ++ decimal(port), and on any descriptor that
holds this uri it sets protocol, host and port back to the original ones. -/
theorem updateConnection_round_trip (protocol host : String) (port : Int)
    (others : List (String × String))
    (hprotocol : lowerScheme protocol = true) (hhost : plainHost host = true)
    (hpos : 0 < port) (hrange : port < 2 ^ 63) :
    updateConnection (some ⟨protocol, host, port, "", others⟩)
      = some (some ⟨protocol, host, port,
          protocol ++ "://" ++ host ++ ":" ++ toString port, others⟩) ∧
    ∀ (protocol0 host0 : String) (port0 : Int) (others0 : List (String × String)),
      updateConnection (some ⟨protocol0, host0, port0,
          protocol ++ "://" ++ host ++ ":" ++ toString port, others0⟩)
        = some (some ⟨protocol, host, port,
            protocol ++ "://" ++ host ++ ":" ++ toString port, others0⟩) := by
  refine ⟨?_, ?_⟩
  · rw [updateConnection_of_empty_uri, if_pos (by omega)]
  intro protocol0 host0 port0 others0
  obtain ⟨n, rfl⟩ := Int.eq_ofNat_of_zero_le (le_of_lt hpos)
  have hn : n < 2 ^ 63 := by exact_mod_cast hrange
  have htext : toString (n : Int) = String.mk (Nat.toDigits 10 n) := rfl
  have hD := strconv.toDigits_decimal n
  have hparse := url.Parse_built protocol host _ hprotocol hhost hD
  have hsplit := url.Hostname_Port_built protocol host _ hhost hD
  have hne : (protocol ++ "://" ++ host ++ ":" ++ String.mk (Nat.toDigits 10 n)) ≠ "" := by
    obtain ⟨c, cs, rfl, _, _⟩ := url.lowerScheme_chars protocol hprotocol
    intro h
    have := congrArg String.data h
    simp [String.data_append] at this
  rw [htext]
  simp only [updateConnection, ConnectionParams.Uri, beq_iff_eq, hne, if_false, hparse,
    hsplit.1, hsplit.2, strconv.Atoi_toDigits n hn, ConnectionParams.SetProtocol,
    ConnectionParams.SetHost, ConnectionParams.SetPort]

/-- Witness of the amended C5 at http, localhost, 3000. -/
theorem updateConnection_round_trip_witness :
    updateConnection (some ⟨"", "", 0, "http" ++ "://" ++ "localhost" ++ ":" ++ toString (3000 : Int), []⟩)
      = some (some ⟨"http", "localhost", 3000,
          "http" ++ "://" ++ "localhost" ++ ":" ++ toString (3000 : Int), []⟩) :=
  (updateConnection_round_trip "http" "localhost" 3000 [] (by decide) (by decide)
    (by decide) (by decide)).2 "" "" 0 []

end connect

/-! ## Resolution -/

namespace connect

open cerr ccon cauth

/-- A connection with empty uri that passes validation has an accepted
protocol, a host and a port. -/
theorem validateConnection_pass (correlationId : String) (connection : ConnectionParams)
    (credential : Option CredentialParams) (huri : connection.uri = "")
    (h : validateConnection correlationId (some connection) credential = none) :
    (connection.protocol = "http" ∨ connection.protocol = "https") ∧
      connection.host ≠ "" ∧ connection.port ≠ 0 := by
  obtain ⟨protocol, host, port, uri, others⟩ := connection
  simp only at huri
  subst huri
  simp only [validateConnection, ConnectionParams.Uri, ConnectionParams.Protocol,
    ConnectionParams.Host, ConnectionParams.Port] at h
  by_cases hp : protocol = "http" ∨ protocol = "https"
  · by_cases hh : host = ""
    · subst hh
      rcases hp with hp | hp <;> subst hp <;> simp at h
    · by_cases hport : port = 0
      · subst hport
        rcases hp with hp | hp <;> subst hp <;> simp [hh] at h
      · exact ⟨hp, hh, hport⟩
  · have h1 : ¬ "http" = protocol := fun e => hp (Or.inl e.symm)
    have h2 : ¬ "https" = protocol := fun e => hp (Or.inr e.symm)
    simp [h1, h2] at h

/-- What `updateConnection` does to a connection that holds a uri. -/
theorem updateConnection_of_uri (protocol host : String) (port : Int) (uri : String)
    (others : List (String × String)) (huri : uri ≠ "") :
    updateConnection (some ⟨protocol, host, port, uri, others⟩)
      = (url.Parse uri).map (fun address =>
          some ⟨address.Scheme, address.Hostname, (strconv.Atoi address.Port).1, uri,
            others⟩) := by
  simp only [updateConnection, ConnectionParams.Uri, beq_iff_eq, huri, if_false]
  cases url.Parse uri <;> rfl

/-- A null connection never passes validation. -/
theorem validateConnection_nil (correlationId : String)
    (credential : Option CredentialParams) :
    validateConnection correlationId none credential
      = some (NewConfigError correlationId "NO_CONNECTION" "HTTP connection is not set") :=
  rfl

/-- The result of `Resolve` once the generic resolver has handed over a
connection without error. -/
theorem Resolve_eq (c : HttpConnectionResolver) (correlationId : String)
    (h : (c.ConnectionResolver.Resolve correlationId).2 = none) :
    Resolve c correlationId =
      match (c.CredentialResolver.Lookup correlationId).2 with
      | some err =>
        some ((c.ConnectionResolver.Resolve correlationId).1,
          (c.CredentialResolver.Lookup correlationId).1, some err)
      | none =>
        match validateConnection correlationId (c.ConnectionResolver.Resolve correlationId).1
            (c.CredentialResolver.Lookup correlationId).1 with
        | some err =>
          some ((c.ConnectionResolver.Resolve correlationId).1,
            (c.CredentialResolver.Lookup correlationId).1, some err)
        | none =>
          (updateConnection (c.ConnectionResolver.Resolve correlationId).1).map
            (fun connection =>
              (connection, (c.CredentialResolver.Lookup correlationId).1, none)) := by
  unfold Resolve
  rw [h]
  simp only
  cases hl : (c.CredentialResolver.Lookup correlationId).2 with
  | some err => simp
  | none =>
    simp only [if_true]
    cases hv : validateConnection correlationId (c.ConnectionResolver.Resolve correlationId).1
        (c.CredentialResolver.Lookup correlationId).1 with
    | some err => simp
    | none =>
      cases hc : (c.ConnectionResolver.Resolve correlationId).1 with
      | none => rw [hc, validateConnection_nil] at hv; exact absurd hv (by simp)
      | some x =>
        simp only [true_and, ne_eq, not_false_eq_true, if_true]
        cases updateConnection (some x) <;> rfl

/-- C6: whenever `Resolve` returns a nil error, the returned connection is not
null, its uri is not empty, and either the uri is the text built from protocol,
host and port, or these three are the scheme, host name and integer port
parsed from the uri. -/
theorem Resolve_invariant (c : HttpConnectionResolver) (correlationId : String)
    (connection : Option ConnectionParams) (credential : Option CredentialParams)
    (h : Resolve c correlationId = some (connection, credential, none)) :
    ∃ conn, connection = some conn ∧ conn.uri ≠ "" ∧
      (conn.uri = conn.protocol ++ "://" ++ conn.host ++ ":" ++ toString conn.port ∨
        ∃ address, url.Parse conn.uri = some address ∧ conn.protocol = address.Scheme ∧
          conn.host = address.Hostname ∧ conn.port = (strconv.Atoi address.Port).1) := by
  cases he : (c.ConnectionResolver.Resolve correlationId).2 with
  | some err =>
    simp [Resolve, he] at h
  | none =>
    rw [Resolve_eq c correlationId he] at h
    cases hl : (c.CredentialResolver.Lookup correlationId).2 with
    | some err => simp [hl] at h
    | none =>
      simp only [hl] at h
      cases hv : validateConnection correlationId (c.ConnectionResolver.Resolve correlationId).1
          (c.CredentialResolver.Lookup correlationId).1 with
      | some err => simp [hv] at h
      | none =>
        simp only [hv] at h
        cases hc : (c.ConnectionResolver.Resolve correlationId).1 with
        | none => rw [hc, validateConnection_nil] at hv; exact absurd hv (by simp)
        | some x =>
          rw [hc] at h hv
          obtain ⟨protocol, host, port, uri, others⟩ := x
          by_cases huri : uri = ""
          · subst huri
            obtain ⟨hp, hh, hport⟩ := validateConnection_pass _ _ _ rfl hv
            simp only at hp hh hport
            rw [updateConnection_of_empty_uri, if_pos hport] at h
            simp only [Option.map_some', Option.some.injEq, Prod.mk.injEq] at h
            refine ⟨_, h.1.symm, ?_, Or.inl rfl⟩
            simp only
            intro h0
            have := congrArg String.length h0
            simp [String.length_append] at this
            exact absurd this.1.2 (by decide)
          · rw [updateConnection_of_uri _ _ _ _ _ huri] at h
            cases hparse : url.Parse uri with
            | none => simp [hparse] at h
            | some address =>
              simp only [hparse, Option.map_some', Option.some.injEq, Prod.mk.injEq] at h
              exact ⟨_, h.1.symm, huri, Or.inr ⟨address, hparse, rfl, rfl, rfl⟩⟩

/-- Witness of C6: the connection http, localhost, 3000 of the tests resolves
to the uri "http://localhost:3000". -/
theorem Resolve_invariant_witness :
    Resolve (staticResolver (some ⟨"http", "localhost", 3000, "", []⟩, none) (none, none)
        (none, none) none) "123"
      = some (some ⟨"http", "localhost", 3000, "http://localhost:3000", []⟩, none, none) ∧
    ∃ conn, some (⟨"http", "localhost", 3000, "http://localhost:3000", []⟩ : ConnectionParams)
        = some conn ∧ conn.uri ≠ "" ∧
      (conn.uri = conn.protocol ++ "://" ++ conn.host ++ ":" ++ toString conn.port ∨
        ∃ address, url.Parse conn.uri = some address ∧ conn.protocol = address.Scheme ∧
          conn.host = address.Hostname ∧ conn.port = (strconv.Atoi address.Port).1) :=
  ⟨by decide,
    Resolve_invariant
      (staticResolver (some ⟨"http", "localhost", 3000, "", []⟩, none) (none, none)
        (none, none) none) "123"
      (some ⟨"http", "localhost", 3000, "http://localhost:3000", []⟩) none (by decide)⟩

/-! ## Resolution of all connections -/

/-- Once an error is recorded, the loop of `ResolveAll` leaves every remaining
descriptor as it is and keeps the error. -/
theorem resolveAllLoop_recorded (correlationId : String)
    (credential : Option CredentialParams) (e : ApplicationError) :
    ∀ L : List (Option ConnectionParams),
      resolveAllLoop correlationId credential L (some e) = some (L, some e) := by
  intro L
  induction L with
  | nil => rfl
  | cons x xs ih => simp [resolveAllLoop, ih]

/-- The loop of `ResolveAll` at a descriptor that fails validation: the error
is recorded and the descriptor and all later ones are left as they are. -/
theorem resolveAllLoop_fails (correlationId : String) (credential : Option CredentialParams)
    (x : Option ConnectionParams) (rest : List (Option ConnectionParams))
    (e : ApplicationError) (hx : validateConnection correlationId x credential = some e) :
    resolveAllLoop correlationId credential (x :: rest) none = some (x :: rest, some e) := by
  simp [resolveAllLoop, hx, resolveAllLoop_recorded]

/-- The loop of `ResolveAll` at a descriptor that passes validation and is
normalized without panic. -/
theorem resolveAllLoop_passes (correlationId : String) (credential : Option CredentialParams)
    (x : ConnectionParams) (y : Option ConnectionParams)
    (rest : List (Option ConnectionParams))
    (hv : validateConnection correlationId (some x) credential = none)
    (hu : updateConnection (some x) = some y) :
    resolveAllLoop correlationId credential (some x :: rest) none
      = (resolveAllLoop correlationId credential rest none).map
          (fun r => (y :: r.1, r.2)) := by
  simp [resolveAllLoop, hv, hu]

/-- The partial-failure policy of the loop of `ResolveAll`: when the
descriptors of `pre` pass validation and are normalized without panic into
`pre0`, and `x` fails validation with `e`, the loop returns the normalized
`pre0`, then `x` and the later descriptors untouched, and the error `e`. -/
theorem resolveAllLoop_policy (correlationId : String) (credential : Option CredentialParams)
    (x : Option ConnectionParams) (post : List (Option ConnectionParams))
    (e : ApplicationError) (hx : validateConnection correlationId x credential = some e) :
    ∀ (pre : List ConnectionParams) (pre0 : List (Option ConnectionParams)),
      List.Forall₂ (fun a b => validateConnection correlationId (some a) credential = none ∧
        updateConnection (some a) = some b) pre pre0 →
      resolveAllLoop correlationId credential (pre.map some ++ x :: post) none
        = some (pre0 ++ x :: post, some e) := by
  intro pre pre0 h
  induction h with
  | nil => exact resolveAllLoop_fails _ _ _ _ _ hx
  | cons hab _ ih =>
    simp only [List.map_cons, List.cons_append]
    rw [resolveAllLoop_passes _ _ _ _ _ hab.1 hab.2, ih]
    rfl

/-- The loop of `ResolveAll` when every descriptor passes validation and is
normalized without panic: all are normalized and no error is returned. -/
theorem resolveAllLoop_all_pass (correlationId : String)
    (credential : Option CredentialParams) :
    ∀ (L : List ConnectionParams) (L0 : List (Option ConnectionParams)),
      List.Forall₂ (fun a b => validateConnection correlationId (some a) credential = none ∧
        updateConnection (some a) = some b) L L0 →
      resolveAllLoop correlationId credential (L.map some) none = some (L0, none) := by
  intro L L0 h
  induction h with
  | nil => rfl
  | cons hab _ ih =>
    simp only [List.map_cons]
    rw [resolveAllLoop_passes _ _ _ _ _ hab.1 hab.2, ih]
    rfl

/-- The partial-failure policy of `ResolveAll`, for descriptors whose
normalization does not panic: the descriptors before the first one that fails
validation are normalized, that one and the later ones are returned
unmodified, and the error is the validation error of that one. -/
theorem ResolveAll_partial_failure (c : HttpConnectionResolver) (correlationId : String)
    (pre : List ConnectionParams) (pre0 : List (Option ConnectionParams))
    (x : Option ConnectionParams) (post : List (Option ConnectionParams))
    (e : ApplicationError)
    (hall : c.ConnectionResolver.ResolveAll correlationId
      = (some (pre.map some ++ x :: post), none))
    (hlook : (c.CredentialResolver.Lookup correlationId).2 = none)
    (hpre : List.Forall₂ (fun a b =>
      validateConnection correlationId (some a) (c.CredentialResolver.Lookup correlationId).1
        = none ∧ updateConnection (some a) = some b) pre pre0)
    (hx : validateConnection correlationId x (c.CredentialResolver.Lookup correlationId).1
      = some e) :
    ResolveAll c correlationId
      = some (some (pre0 ++ x :: post), (c.CredentialResolver.Lookup correlationId).1,
          some e) := by
  simp only [ResolveAll, hall, hlook, resolveAllLoop_policy _ _ _ _ _ hx _ _ hpre]

/-- When the credential lookup fails, `ResolveAll` returns the descriptors
unmodified together with the lookup error. -/
theorem ResolveAll_lookup_failure (c : HttpConnectionResolver) (correlationId : String)
    (L : List (Option ConnectionParams)) (e : ApplicationError)
    (hall : c.ConnectionResolver.ResolveAll correlationId = (some L, none))
    (hlook : (c.CredentialResolver.Lookup correlationId).2 = some e) :
    ResolveAll c correlationId
      = some (some L, (c.CredentialResolver.Lookup correlationId).1, some e) := by
  simp only [ResolveAll, hall, hlook, resolveAllLoop_recorded]

/-- C7, at the failing input: a descriptor whose uri "http://localhost:abc"
is not a parseable address passes validation, and `ResolveAll` over the list
that holds just this descriptor panics instead of returning a sequence. -/
theorem ResolveAll_unparseable_uri_panics :
    validateConnection "123" (some ⟨"", "", 0, "http://localhost:abc", []⟩) none = none ∧
    url.Parse "http://localhost:abc" = none ∧
    ResolveAll (staticResolver (none, none)
      (some [some ⟨"", "", 0, "http://localhost:abc", []⟩], none) (none, none) none) "123"
      = none := by
  decide

/-- C8, as stated, fails: when the generic resolver reports the discovery
error of the second of three connections, `ResolveAll` returns a null sequence
and a null credential with that error, even if the three descriptors were
handed over next to the error. -/
theorem ResolveAll_discovery_error_counterexample :
    ResolveAll (staticResolver (none, none)
      (some [some ⟨"http", "a", 1, "", []⟩, some ⟨"", "", 0, "", [("discovery_key", "b")]⟩,
          some ⟨"http", "c", 3, "", []⟩],
        some ⟨"123", "DISCOVERY_FAILED", "Discovery lookup failed", []⟩)
      (none, none) none) "123"
      = some (none, none, some ⟨"123", "DISCOVERY_FAILED", "Discovery lookup failed", []⟩) := by
  decide

/-- C8, amended: whenever the generic resolver's `ResolveAll` reports an error
(such as a failed discovery lookup of one connection), `ResolveAll` returns a
null sequence and a null credential together with that error. -/
theorem ResolveAll_resolver_error (c : HttpConnectionResolver) (correlationId : String)
    (e : ApplicationError) (h : (c.ConnectionResolver.ResolveAll correlationId).2 = some e) :
    ResolveAll c correlationId = some (none, none, some e) := by
  simp only [ResolveAll, h]

/-- Witness of the amended C8 at a resolver that reports a discovery error
next to two descriptors. -/
theorem ResolveAll_resolver_error_witness :
    ResolveAll (staticResolver (none, none)
      (some [some ⟨"http", "a", 1, "", []⟩, none],
        some ⟨"7", "DISCOVERY_FAILED", "Discovery lookup failed", []⟩)
      (none, none) none) "7"
      = some (none, none, some ⟨"7", "DISCOVERY_FAILED", "Discovery lookup failed", []⟩) :=
  ResolveAll_resolver_error _ "7" _ rfl

/-! ## Registration -/

/-- C9: `Register` returns the first error of connection resolution,
credential lookup and validation without calling the generic resolver's
`Register`; when all three succeed it calls it exactly once, with the
descriptor as resolved, and returns its result. -/
theorem Register_after_validation (c : HttpConnectionResolver) (correlationId : String) :
    (∀ e, (c.ConnectionResolver.Resolve correlationId).2 = some e →
      Register c correlationId = (some e, [])) ∧
    ((c.ConnectionResolver.Resolve correlationId).2 = none →
      ∀ e, (c.CredentialResolver.Lookup correlationId).2 = some e →
      Register c correlationId = (some e, [])) ∧
    ((c.ConnectionResolver.Resolve correlationId).2 = none →
      (c.CredentialResolver.Lookup correlationId).2 = none →
      ∀ e, validateConnection correlationId (c.ConnectionResolver.Resolve correlationId).1
        (c.CredentialResolver.Lookup correlationId).1 = some e →
      Register c correlationId = (some e, [])) ∧
    ((c.ConnectionResolver.Resolve correlationId).2 = none →
      (c.CredentialResolver.Lookup correlationId).2 = none →
      validateConnection correlationId (c.ConnectionResolver.Resolve correlationId).1
        (c.CredentialResolver.Lookup correlationId).1 = none →
      Register c correlationId
        = (c.ConnectionResolver.Register correlationId
            (c.ConnectionResolver.Resolve correlationId).1,
          [(correlationId, (c.ConnectionResolver.Resolve correlationId).1)])) ∧
    ((Register c correlationId).2 ≠ [] ↔
      ((c.ConnectionResolver.Resolve correlationId).2 = none ∧
        (c.CredentialResolver.Lookup correlationId).2 = none ∧
        validateConnection correlationId (c.ConnectionResolver.Resolve correlationId).1
          (c.CredentialResolver.Lookup correlationId).1 = none)) := by
  refine ⟨?_, ?_, ?_, ?_, ?_⟩
  · intro e h
    simp only [Register, h]
  · intro h e hl
    simp [Register, h, hl]
  · intro h hl e hv
    simp [Register, h, hl, hv]
  · intro h hl hv
    simp [Register, h, hl, hv]
  · cases h : (c.ConnectionResolver.Resolve correlationId).2 with
    | some e => simp [Register, h]
    | none =>
      cases hl : (c.CredentialResolver.Lookup correlationId).2 with
      | some e => simp [Register, h, hl]
      | none =>
        cases hv : validateConnection correlationId
            (c.ConnectionResolver.Resolve correlationId).1
            (c.CredentialResolver.Lookup correlationId).1 with
        | some e => simp [Register, h, hl, hv]
        | none => simp [Register, h, hl, hv]

/-- C10, at the failing input: the connection of the documented example, with
host "10.1.1.100" and port 8080 and neither protocol nor uri, is refused by
`Resolve` with WRONG_PROTOCOL and is not normalized. -/
theorem Resolve_documented_example :
    Resolve (staticResolver (some ⟨"", "10.1.1.100", 8080, "", []⟩, none) (none, none)
        (none, none) none) "123"
      = some (some ⟨"", "10.1.1.100", 8080, "", []⟩, none,
          some ⟨"123", "WRONG_PROTOCOL", "Protocol is not supported by REST connection",
            [("protocol", "")]⟩) := by
  decide

end connect

/-! ## Normalization from a uri -/

namespace strconv

/-- A run of decimal digits always has a value. -/
theorem parseDigits_decimal : ∀ (ds : List Char) (acc : Nat),
    (∀ x ∈ ds, '0' ≤ x ∧ x ≤ '9') → ∃ v, parseDigits ds acc = some v := by
  intro ds
  induction ds with
  | nil => intro acc _; exact ⟨acc, rfl⟩
  | cons c cs ih =>
    intro acc h
    have hc := h c (List.mem_cons_self _ _)
    obtain ⟨v, hv⟩ := ih (acc * 10 + (c.toNat - '0'.toNat))
      (fun x hx => h x (List.mem_cons_of_mem _ hx))
    exact ⟨v, by simp only [parseDigits, hc, and_self, if_true, hv]⟩

/-- The number `Atoi` returns for a text of decimal digits: 0 for the empty
text, otherwise the value of the digits, cut down to the largest `int` when
it does not fit. -/
theorem Atoi_decimal (ds : List Char) (h : ∀ x ∈ ds, '0' ≤ x ∧ x ≤ '9') :
    (ds = [] → (Atoi (String.mk ds)).1 = 0) ∧
    (ds ≠ [] → ∃ v, parseDigits ds 0 = some v ∧
      (Atoi (String.mk ds)).1 = if v < 2 ^ 63 then (v : Int) else (2 : Int) ^ 63 - 1) := by
  refine ⟨?_, ?_⟩
  · intro hd
    subst hd
    rfl
  · intro hne
    obtain ⟨v, hv⟩ := parseDigits_decimal ds 0 h
    refine ⟨v, hv, ?_⟩
    cases ds with
    | nil => exact absurd rfl hne
    | cons c cs =>
      have hc := url.digit_code c (h c (List.mem_cons_self _ _))
      have h1 : (c == '+') = false := by
        rw [beq_eq_false_iff_ne]
        exact url.ne_of_code c '+' (by have e : '+'.toNat = 43 := (by decide); omega)
      have h2 : (c == '-') = false := by
        rw [beq_eq_false_iff_ne]
        exact url.ne_of_code c '-' (by have e : '-'.toNat = 45 := (by decide); omega)
      by_cases hlt : v < 2 ^ 63
      · have hlt2 : ¬ 9223372036854775808 ≤ v := by omega
        have hlt3 : v < 9223372036854775808 := by omega
        simp [Atoi, h1, h2, hv, hlt2, hlt3]
      · have hge : 9223372036854775808 ≤ v := by omega
        have hnlt : ¬ v < 9223372036854775808 := by omega
        simp [Atoi, h1, h2, hv, hge, hnlt]

end strconv

namespace url

/-- The port text that `Port()` reads is made of decimal digits. -/
theorem Port_decimal (address : URL) : ∀ x ∈ address.Port.data, '0' ≤ x ∧ x ≤ '9' := by
  have key : ∀ hostPort : List Char, ∀ x ∈ (splitHostPort hostPort).2, '0' ≤ x ∧ x ≤ '9' := by
    intro hostPort x hx
    have hsplit : ∀ p : List Char × List Char,
        (match strings.LastIndex ':' hostPort with
          | some (host, port) =>
            if validOptionalPort (':' :: port) then (host, port) else (hostPort, [])
          | none => (hostPort, [])) = p → ∀ y ∈ p.2, '0' ≤ y ∧ y ≤ '9' := by
      intro p hp y hy
      cases hl : strings.LastIndex ':' hostPort with
      | none =>
        rw [hl] at hp
        subst hp
        simp at hy
      | some hp2 =>
        obtain ⟨host, port⟩ := hp2
        rw [hl] at hp
        simp only at hp
        by_cases hv : validOptionalPort (':' :: port) = true
        · rw [if_pos hv] at hp
          subst hp
          simp only [validOptionalPort, beq_self_eq_true, Bool.true_and, List.all_eq_true,
            Bool.not_eq_true', Bool.or_eq_false_iff, decide_eq_false_iff_not] at hv
          have := hv y hy
          exact ⟨not_lt.1 this.1, not_lt.1 this.2⟩
        · rw [if_neg hv] at hp
          subst hp
          simp at hy
    unfold splitHostPort at hx
    simp only at hx
    split at hx
    · exact hsplit _ rfl x hx
    · exact hsplit _ rfl x hx
  exact key _

end url

namespace connect

open cerr ccon cauth

/-- What `updateConnection` returns, read from the descriptor it leaves behind
the pointer. -/
theorem updateConnection_eq_inPlace (connection : ConnectionParams) :
    updateConnection (some connection) =
      if (updateConnectionInPlace connection).2 then none
      else some (some (updateConnectionInPlace connection).1) := by
  unfold updateConnection updateConnectionInPlace
  simp only
  split
  · rfl
  · cases url.Parse connection.Uri <;> rfl

/-- C11, at the failing input: the uri "http://localhost:abc" is not parsed,
and `updateConnection` on a descriptor that holds it panics; on a null
connection it does nothing. -/
theorem updateConnection_unparseable_uri_panics :
    url.Parse "http://localhost:abc" = none ∧
    updateConnection (some ⟨"", "", 0, "http://localhost:abc", []⟩) = none ∧
    updateConnectionInPlace ⟨"", "", 0, "http://localhost:abc", []⟩
      = (⟨"", "", 0, "http://localhost:abc", []⟩, true) ∧
    updateConnection none = some none := by
  decide

/-- C12, as stated, fails: the port text "9223372036854775808" is too large
for the integer type, and the port is set to 9223372036854775807, not to 0. -/
theorem updateConnection_port_too_large_counterexample :
    strconv.Atoi "9223372036854775808" = (9223372036854775807, true) ∧
    updateConnection (some ⟨"", "", 0, "http://localhost:9223372036854775808", []⟩)
      = some (some ⟨"http", "localhost", 9223372036854775807,
          "http://localhost:9223372036854775808", []⟩) := by
  decide

/-- C12, amended: on a descriptor with a non-empty uri that `url.Parse`
accepts, `updateConnection` sets protocol to the parsed scheme, host to the
parsed host name and port to the number `Atoi` gives for the parsed port
text, which is made of decimal digits: 0 when the text is empty, otherwise
the value of the digits, and 2^63 - 1 when that value does not fit. -/
theorem updateConnection_parsed (connection : ConnectionParams) (address : url.URL)
    (huri : connection.uri ≠ "") (hparse : url.Parse connection.uri = some address) :
    updateConnection (some connection) = some (some { connection with
      protocol := address.Scheme, host := address.Hostname,
      port := (strconv.Atoi address.Port).1 }) ∧
    (address.Port = "" → (strconv.Atoi address.Port).1 = 0) ∧
    (address.Port ≠ "" → ∃ v, strconv.parseDigits address.Port.data 0 = some v ∧
      (strconv.Atoi address.Port).1
        = if v < 2 ^ 63 then (v : Int) else (2 : Int) ^ 63 - 1) := by
  obtain ⟨protocol, host, port, uri, others⟩ := connection
  simp only at huri hparse
  have hdec := strconv.Atoi_decimal address.Port.data (url.Port_decimal address)
  refine ⟨?_, ?_, ?_⟩
  · rw [updateConnection_of_uri _ _ _ _ _ huri, hparse]
    rfl
  · intro h
    rw [h]
    rfl
  · intro h
    have hne : address.Port.data ≠ [] := by
      intro h0
      apply h
      exact String.ext h0
    exact hdec.2 hne

/-- Witness of the amended C12 at the uri "http://localhost:3000". -/
theorem updateConnection_parsed_witness :
    updateConnection (some ⟨"", "", 0, "http://localhost:3000", []⟩)
      = some (some ⟨"http", "localhost", 3000, "http://localhost:3000", []⟩) :=
  (updateConnection_parsed ⟨"", "", 0, "http://localhost:3000", []⟩
    ⟨"http", "", "localhost:3000", "", "", ""⟩ (by decide) (by decide)).1

/-- C14: `updateConnection` on a non-null descriptor with a non-empty uri
leaves uri and the further fields as they are, and on one with an empty uri
leaves protocol, host, port and the further fields as they are; this holds
of the descriptor left behind by a call that returns and by one that panics. -/
theorem updateConnection_frame (connection : ConnectionParams) :
    (connection.uri ≠ "" →
      (updateConnectionInPlace connection).1.uri = connection.uri ∧
      (updateConnectionInPlace connection).1.others = connection.others) ∧
    (connection.uri = "" →
      (updateConnectionInPlace connection).2 = false ∧
      (updateConnectionInPlace connection).1.protocol = connection.protocol ∧
      (updateConnectionInPlace connection).1.host = connection.host ∧
      (updateConnectionInPlace connection).1.port = connection.port ∧
      (updateConnectionInPlace connection).1.others = connection.others) ∧
    (updateConnection (some connection) =
      if (updateConnectionInPlace connection).2 then none
      else some (some (updateConnectionInPlace connection).1)) := by
  refine ⟨?_, ?_, updateConnection_eq_inPlace connection⟩
  · intro huri
    unfold updateConnectionInPlace
    simp only [ConnectionParams.Uri, beq_iff_eq, huri, if_false]
    cases url.Parse connection.uri <;> exact ⟨rfl, rfl⟩
  · intro huri
    unfold updateConnectionInPlace
    simp [ConnectionParams.Uri, huri, ConnectionParams.SetUri]

end connect

/-! ## Further properties of validation and resolution -/

namespace connect

open cerr ccon cauth

/-- C15: on a null connection `validateConnection` returns the error
NO_CONNECTION, for every credential and every correlation id. -/
theorem validateConnection_null_connection (correlationId : String)
    (credential : Option CredentialParams) :
    errorCode (validateConnection correlationId none credential) = some "NO_CONNECTION" ∧
    validateConnection correlationId none credential
      = some ⟨correlationId, "NO_CONNECTION", "HTTP connection is not set", []⟩ :=
  ⟨rfl, rfl⟩

/-- C16: on a non-null connection with empty uri whose protocol is neither
"http" nor "https", `validateConnection` returns the error WRONG_PROTOCOL whose
details hold the protocol, and nothing else, under the key "protocol",
whatever host, port and credential are. -/
theorem validateConnection_wrong_protocol (correlationId : String)
    (connection : ConnectionParams) (credential : Option CredentialParams)
    (huri : connection.uri = "") (hhttp : connection.protocol ≠ "http")
    (hhttps : connection.protocol ≠ "https") :
    ∃ e, validateConnection correlationId (some connection) credential = some e ∧
      e.code = "WRONG_PROTOCOL" ∧ e.correlation_id = correlationId ∧
      e.details.lookup "protocol" = some connection.protocol ∧
      e.details = [("protocol", connection.protocol)] := by
  obtain ⟨protocol, host, port, uri, others⟩ := connection
  simp only at huri hhttp hhttps
  subst huri
  have h1 : ¬ "http" = protocol := fun e => hhttp e.symm
  have h2 : ¬ "https" = protocol := fun e => hhttps e.symm
  refine ⟨(NewConfigError correlationId "WRONG_PROTOCOL"
    "Protocol is not supported by REST connection").WithDetails "protocol" protocol,
    ?_, rfl, rfl, ?_, ?_⟩
  · simp [validateConnection, ConnectionParams.Uri, ConnectionParams.Protocol, h1, h2]
  · simp [NewConfigError, ApplicationError.WithDetails, List.lookup]
  · simp [NewConfigError, ApplicationError.WithDetails]

/-- Witness of C16 at the connection ftp, "h", 1. -/
theorem validateConnection_wrong_protocol_witness :
    ∃ e, validateConnection "123" (some ⟨"ftp", "h", 1, "", []⟩) none = some e ∧
      e.code = "WRONG_PROTOCOL" ∧ e.correlation_id = "123" ∧
      e.details.lookup "protocol" = some "ftp" ∧ e.details = [("protocol", "ftp")] :=
  validateConnection_wrong_protocol "123" ⟨"ftp", "h", 1, "", []⟩ none rfl
    (by decide) (by decide)

/-- C17: a connection with empty uri, protocol "http", a host and a port
validates without error for every credential. -/
theorem validateConnection_http_no_credential (correlationId : String)
    (connection : ConnectionParams) (credential : Option CredentialParams)
    (huri : connection.uri = "") (hprotocol : connection.protocol = "http")
    (hhost : connection.host ≠ "") (hport : connection.port ≠ 0) :
    validateConnection correlationId (some connection) credential = none := by
  obtain ⟨protocol, host, port, uri, others⟩ := connection
  simp only at huri hprotocol hhost hport
  subst huri; subst hprotocol
  simp [validateConnection, ConnectionParams.Uri, ConnectionParams.Protocol,
    ConnectionParams.Host, ConnectionParams.Port, hhost, hport]

/-- Witness of C17 at the connection http, "h", 1 with a null credential. -/
theorem validateConnection_http_no_credential_witness :
    validateConnection "123" (some ⟨"http", "h", 1, "", []⟩) none = none ∧
    validateConnection "123" (some ⟨"http", "h", 1, "", []⟩) (some ⟨[]⟩) = none :=
  ⟨validateConnection_http_no_credential "123" ⟨"http", "h", 1, "", []⟩ none rfl rfl
      (by decide) (by decide),
    validateConnection_http_no_credential "123" ⟨"http", "h", 1, "", []⟩ (some ⟨[]⟩) rfl rfl
      (by decide) (by decide)⟩

/-- C13: once the generic resolver has handed over a connection without
error, a failed credential lookup or a failed validation makes `Resolve`
return that connection unmodified together with the lookup or validation
error, and every non-nil error that `Resolve` returns arises in this way. -/
theorem Resolve_error_unmodified (c : HttpConnectionResolver) (correlationId : String)
    (hres : (c.ConnectionResolver.Resolve correlationId).2 = none) :
    (∀ e, (c.CredentialResolver.Lookup correlationId).2 = some e →
      Resolve c correlationId = some ((c.ConnectionResolver.Resolve correlationId).1,
        (c.CredentialResolver.Lookup correlationId).1, some e)) ∧
    ((c.CredentialResolver.Lookup correlationId).2 = none →
      ∀ e, validateConnection correlationId (c.ConnectionResolver.Resolve correlationId).1
        (c.CredentialResolver.Lookup correlationId).1 = some e →
      Resolve c correlationId = some ((c.ConnectionResolver.Resolve correlationId).1,
        (c.CredentialResolver.Lookup correlationId).1, some e)) ∧
    (∀ connection credential e,
      Resolve c correlationId = some (connection, credential, some e) →
      connection = (c.ConnectionResolver.Resolve correlationId).1 ∧
      credential = (c.CredentialResolver.Lookup correlationId).1 ∧
      ((c.CredentialResolver.Lookup correlationId).2 = some e ∨
        ((c.CredentialResolver.Lookup correlationId).2 = none ∧
          validateConnection correlationId (c.ConnectionResolver.Resolve correlationId).1
            (c.CredentialResolver.Lookup correlationId).1 = some e))) := by
  refine ⟨?_, ?_, ?_⟩
  · intro e hl
    rw [Resolve_eq c correlationId hres, hl]
  · intro hl e hv
    rw [Resolve_eq c correlationId hres, hl]
    simp only [hv]
  · intro connection credential e h
    rw [Resolve_eq c correlationId hres] at h
    cases hl : (c.CredentialResolver.Lookup correlationId).2 with
    | some e0 =>
      simp only [hl, Option.some.injEq, Prod.mk.injEq] at h
      exact ⟨h.1.symm, h.2.1.symm, Or.inl (by rw [h.2.2])⟩
    | none =>
      simp only [hl] at h
      cases hv : validateConnection correlationId
          (c.ConnectionResolver.Resolve correlationId).1
          (c.CredentialResolver.Lookup correlationId).1 with
      | some e0 =>
        simp only [hv, Option.some.injEq, Prod.mk.injEq] at h
        exact ⟨h.1.symm, h.2.1.symm, Or.inr ⟨rfl, by rw [h.2.2]⟩⟩
      | none =>
        simp only [hv] at h
        cases hu : updateConnection (c.ConnectionResolver.Resolve correlationId).1 with
        | none => simp [hu] at h
        | some y => simp [hu] at h

/-- Witness of C13: the connection https, "h", 1 with a null credential comes
back unmodified with the error NO_CREDENTIAL. -/
theorem Resolve_error_unmodified_witness :
    Resolve (staticResolver (some ⟨"https", "h", 1, "", []⟩, none) (none, none)
        (none, none) none) "123"
      = some (some ⟨"https", "h", 1, "", []⟩, none,
          some ⟨"123", "NO_CREDENTIAL",
            "SSL certificates are not configured for HTTPS protocol", []⟩) :=
  (Resolve_error_unmodified
    (staticResolver (some ⟨"https", "h", 1, "", []⟩, none) (none, none) (none, none) none)
    "123" rfl).2.1 rfl _ (by decide)

/-- C18: when the generic resolver returns a null list without error,
`ResolveAll` returns a non-null empty sequence, the looked-up credential and
the error of the credential lookup. -/
theorem ResolveAll_null_list (c : HttpConnectionResolver) (correlationId : String)
    (h : c.ConnectionResolver.ResolveAll correlationId = (none, none)) :
    ResolveAll c correlationId
      = some (some [], (c.CredentialResolver.Lookup correlationId).1,
          (c.CredentialResolver.Lookup correlationId).2) := by
  simp only [ResolveAll, h, resolveAllLoop]

/-- Witness of C18 at a resolver without configured connections, once with a
successful and once with a failed credential lookup. -/
theorem ResolveAll_null_list_witness :
    ResolveAll (staticResolver (none, none) (none, none) (some ⟨[("k", "v")]⟩, none) none)
        "123" = some (some [], some ⟨[("k", "v")]⟩, none) ∧
    ResolveAll (staticResolver (none, none) (none, none)
        (none, some ⟨"123", "LOOKUP_FAILED", "Credential lookup failed", []⟩) none) "123"
      = some (some [], none,
          some ⟨"123", "LOOKUP_FAILED", "Credential lookup failed", []⟩) :=
  ⟨ResolveAll_null_list _ "123" rfl, ResolveAll_null_list _ "123" rfl⟩

/-- C19: when the generic resolver yields the descriptor `x` for `Resolve` and
the one-element list of `x` for `ResolveAll`, `ResolveAll` returns the
one-element sequence of the connection that `Resolve` returns, with the same
credential and the same error, and panics exactly when `Resolve` does. -/
theorem Resolve_ResolveAll_agree (c : HttpConnectionResolver) (correlationId : String)
    (x : Option ConnectionParams)
    (hone : c.ConnectionResolver.Resolve correlationId = (x, none))
    (hall : c.ConnectionResolver.ResolveAll correlationId = (some [x], none)) :
    ResolveAll c correlationId
      = (Resolve c correlationId).map (fun r => (some [r.1], r.2.1, r.2.2)) := by
  simp only [ResolveAll, Resolve, hone, hall, resolveAllLoop]
  cases hl : (c.CredentialResolver.Lookup correlationId).2 with
  | some e => simp
  | none =>
    simp only [if_true]
    cases hv : validateConnection correlationId x
        (c.CredentialResolver.Lookup correlationId).1 with
    | some e => simp
    | none =>
      cases x with
      | none => simp
      | some d =>
        simp only [true_and, ne_eq, not_false_eq_true, if_true]
        cases updateConnection (some d) <;> simp

/-- Witness of C19 at the connection http, localhost, 3000. -/
theorem Resolve_ResolveAll_agree_witness :
    ResolveAll (staticResolver (some ⟨"http", "localhost", 3000, "", []⟩, none)
        (some [some ⟨"http", "localhost", 3000, "", []⟩], none) (none, none) none) "123"
      = (Resolve (staticResolver (some ⟨"http", "localhost", 3000, "", []⟩, none)
          (some [some ⟨"http", "localhost", 3000, "", []⟩], none) (none, none) none)
            "123").map (fun r => (some [r.1], r.2.1, r.2.2)) ∧
    Resolve (staticResolver (some ⟨"http", "localhost", 3000, "", []⟩, none)
          (some [some ⟨"http", "localhost", 3000, "", []⟩], none) (none, none) none) "123"
      = some (some ⟨"http", "localhost", 3000, "http://localhost:3000", []⟩, none, none) :=
  ⟨Resolve_ResolveAll_agree _ "123" (some ⟨"http", "localhost", 3000, "", []⟩) rfl rfl,
    by decide⟩

/-- C20: whenever `Resolve` succeeds on a descriptor with empty uri, the uri
it returns is protocol ++ "://" ++ host ++ ":" ++ decimal(port), the other
fields are unchanged, the protocol is "http" or "https", the host is not
empty and the port is not 0. -/
theorem Resolve_uri_with_port (c : HttpConnectionResolver) (correlationId : String)
    (x : ConnectionParams) (connection : Option ConnectionParams)
    (credential : Option CredentialParams)
    (hone : c.ConnectionResolver.Resolve correlationId = (some x, none))
    (huri : x.uri = "")
    (h : Resolve c correlationId = some (connection, credential, none)) :
    connection = some { x with
      uri := x.protocol ++ "://" ++ x.host ++ ":" ++ toString x.port } ∧
    (x.protocol = "http" ∨ x.protocol = "https") ∧ x.host ≠ "" ∧ x.port ≠ 0 := by
  have hres : (c.ConnectionResolver.Resolve correlationId).2 = none := by rw [hone]
  rw [Resolve_eq c correlationId hres, hone] at h
  cases hl : (c.CredentialResolver.Lookup correlationId).2 with
  | some e => simp [hl] at h
  | none =>
    simp only [hl] at h
    cases hv : validateConnection correlationId (some x)
        (c.CredentialResolver.Lookup correlationId).1 with
    | some e => simp [hv] at h
    | none =>
      simp only [hv] at h
      obtain ⟨hp, hh, hport⟩ := validateConnection_pass _ _ _ huri hv
      obtain ⟨protocol, host, port, uri, others⟩ := x
      simp only at huri hp hh hport
      subst huri
      rw [updateConnection_of_empty_uri, if_pos hport] at h
      simp only [Option.map_some', Option.some.injEq, Prod.mk.injEq] at h
      exact ⟨h.1.symm, hp, hh, hport⟩

/-- Witness of C20 at the connection http, localhost, 3000. -/
theorem Resolve_uri_with_port_witness :
    some (⟨"http", "localhost", 3000, "http://localhost:3000", []⟩ : ConnectionParams)
      = some { (⟨"http", "localhost", 3000, "", []⟩ : ConnectionParams) with
          uri := "http" ++ "://" ++ "localhost" ++ ":" ++ toString (3000 : Int) } ∧
    (("http" : String) = "http" ∨ ("http" : String) = "https") ∧
      ("localhost" : String) ≠ "" ∧ (3000 : Int) ≠ 0 :=
  Resolve_uri_with_port
    (staticResolver (some ⟨"http", "localhost", 3000, "", []⟩, none) (none, none)
      (none, none) none) "123" ⟨"http", "localhost", 3000, "", []⟩
    (some ⟨"http", "localhost", 3000, "http://localhost:3000", []⟩) none rfl rfl (by decide)

end connect
